import Mathlib

/-!
# MPU demonstration firmware (`main.c`): embedding and verification

The firmware configures the ARMv7-M memory protection unit, installs the
`MemManage` and `SVC` handlers and drives a scripted sequence of accesses
against the configured regions.  The C functions of `main.c` are embedded as
state-passing functions on a `Machine`; the registers and the access check of
the MPU hardware, and the vendor (CMSIS) helpers the file calls, are modelled
from the specification of the register contract.
-/

namespace MpuDemo

/-! ## Machine integers -/

/-- Value of a C expression once stored in a `uint32_t`. -/
def u32 (n : Nat) : Nat := n % 2 ^ 32

/-- Value of a C expression once passed as a `uint8_t` argument. -/
def u8 (n : Nat) : Nat := n % 2 ^ 8

/-! ## Data model -/

/-- One hardware region slot: the base-address word and the size/attribute
word last written to it. -/
structure Slot where
  rbar : Nat
  rasr : Nat
deriving DecidableEq, Repr

/-- The MPU register file: control word, region-number selector and the
region slots (eight on this target). -/
structure MPU where
  ctrl : Nat
  rnr : Nat
  slots : List Slot
deriving DecidableEq, Repr

/-- Kind of a data access. -/
inductive AccessKind where
  | read
  | write
deriving DecidableEq, Repr

/-- One line handed to the `logPrint` sink; the constructor names the format
string of the call and carries its arguments. -/
inductive LogMsg where
  | svcCall
  | memManage (control mmfar lr : Nat)
  | attemptAccess
  | notPermitted
  | nonExecutable
  | stackingError
  | regValue (addr value : Nat)
  | endingPrivilege
  | controlPspMsp (control psp msp : Nat)
deriving DecidableEq, Repr

/-- Observation of one scripted data access at the moment it is first
attempted: where, what, from which privilege level, whether the MPU global
enable bit was set, and whether the attempt trapped. -/
structure AccessEvent where
  addr : Nat
  kind : AccessKind
  privileged : Bool
  mpuEnabled : Bool
  trapped : Bool
deriving DecidableEq, Repr

/-- Processor and MPU state the firmware acts on.  The field `trace` is an
observation log of the scripted accesses; no operation reads it. -/
structure Machine where
  mpu : MPU
  control : Nat
  cfsr : Nat
  mmfar : Nat
  lr : Nat
  psp : Nat
  msp : Nat
  mem : List (Nat × Nat)
  log : List LogMsg
  trace : List AccessEvent
deriving DecidableEq, Repr

/-! ## Constants of the absent headers -/

/-- Modelled from the spec: `mpu_manual.h` is absent; address of the MPU type
register in the ARMv7-M system control space. -/
def MPU_REG_TYPE : Nat := 0xE000ED90
/-- Modelled from the spec: `mpu_manual.h` is absent; address of the MPU
control register (bit 0 global enable, then the two option flags). -/
def MPU_REG_CTRL : Nat := 0xE000ED94
/-- Modelled from the spec: `mpu_manual.h` is absent; address of the region
number register. -/
def MPU_REG_RNR : Nat := 0xE000ED98
/-- Modelled from the spec: `mpu_manual.h` is absent; address of the region
base address register. -/
def MPU_REG_RBAR : Nat := 0xE000ED9C
/-- Modelled from the spec: `mpu_manual.h` is absent; the name the source
uses for the address of the region size/attribute register. -/
def MPU_REG_RLAR : Nat := 0xE000EDA0

/-- Modelled from the spec: control word bit 0, global enable. -/
def MPU_CTRL_ENABLE_Msk : Nat := 1
/-- Modelled from the spec: control word flag `faultHandlersBypassEnable`. -/
def MPU_CTRL_HFNMIENA_Msk : Nat := 2
/-- Modelled from the spec: control word flag `privilegedDefaultEnable`. -/
def MPU_CTRL_PRIVDEFENA_Msk : Nat := 4

/-- Modelled from the spec: size/attribute word, enable bit (bit 0). -/
def MPU_RASR_ENABLE_Msk : Nat := 0x1
/-- Modelled from the spec: size field position (bits 1-5). -/
def MPU_RASR_SIZE_Pos : Nat := 1
/-- Modelled from the spec: size field mask (bits 1-5). -/
def MPU_RASR_SIZE_Msk : Nat := 0x3E
/-- Modelled from the spec: sub-region disable field position. -/
def MPU_RASR_SRD_Pos : Nat := 8
/-- Modelled from the spec: sub-region disable field mask. -/
def MPU_RASR_SRD_Msk : Nat := 0xFF00
/-- Modelled from the spec: bufferable bit position. -/
def MPU_RASR_B_Pos : Nat := 16
/-- Modelled from the spec: bufferable bit mask. -/
def MPU_RASR_B_Msk : Nat := 0x10000
/-- Modelled from the spec: cacheable bit position. -/
def MPU_RASR_C_Pos : Nat := 17
/-- Modelled from the spec: cacheable bit mask. -/
def MPU_RASR_C_Msk : Nat := 0x20000
/-- Modelled from the spec: shareable bit position. -/
def MPU_RASR_S_Pos : Nat := 18
/-- Modelled from the spec: shareable bit mask. -/
def MPU_RASR_S_Msk : Nat := 0x40000
/-- Modelled from the spec: type-extension field position. -/
def MPU_RASR_TEX_Pos : Nat := 19
/-- Modelled from the spec: type-extension field mask. -/
def MPU_RASR_TEX_Msk : Nat := 0x380000
/-- Modelled from the spec: access-permission field position (bits 24-26). -/
def MPU_RASR_AP_Pos : Nat := 24
/-- Modelled from the spec: access-permission field mask (bits 24-26). -/
def MPU_RASR_AP_Msk : Nat := 0x7000000
/-- Modelled from the spec: execute-never bit position (bit 28). -/
def MPU_RASR_XN_Pos : Nat := 28
/-- Modelled from the spec: execute-never bit mask (bit 28). -/
def MPU_RASR_XN_Msk : Nat := 0x10000000

/-- Modelled from the spec: permission `NONE`. -/
def ARM_MPU_AP_NONE : Nat := 0
/-- Modelled from the spec: permission `PRIV_RW`. -/
def ARM_MPU_AP_PRIV : Nat := 1
/-- Modelled from the spec: permission `URO`. -/
def ARM_MPU_AP_URO : Nat := 2
/-- Modelled from the spec: permission `FULL`. -/
def ARM_MPU_AP_FULL : Nat := 3
/-- Modelled from the spec: permission `PRO`. -/
def ARM_MPU_AP_PRO : Nat := 5
/-- Modelled from the spec: permission `RO`. -/
def ARM_MPU_AP_RO : Nat := 6

/-- Modelled from the spec: size code of a 16 KB region, log2(bytes) - 1. -/
def ARM_MPU_REGION_SIZE_16KB : Nat := 0x0D
/-- Modelled from the spec: size code of a 64 KB region, log2(bytes) - 1. -/
def ARM_MPU_REGION_SIZE_64KB : Nat := 0x0F
/-- Modelled from the spec: size code of a 128 KB region, log2(bytes) - 1. -/
def ARM_MPU_REGION_SIZE_128KB : Nat := 0x10

/-- Modelled from the spec: the "non-privileged" bit of the control register
of the execution context. -/
def CONTROL_nPRIV_Msk : Nat := 1

/-- Modelled from the spec: fault status flag `instruction-access-violation`. -/
def SCB_CFSR_IACCVIOL_Msk : Nat := 0x01
/-- Modelled from the spec: fault status flag `data-access-violation`. -/
def SCB_CFSR_DACCVIOL_Msk : Nat := 0x02
/-- Modelled from the spec: fault status flag `stacking-error`. -/
def SCB_CFSR_MSTKERR_Msk : Nat := 0x10
/-- Modelled from the spec: fault status flag `address-valid`. -/
def SCB_CFSR_MMARVALID_Msk : Nat := 0x80

/-! ## Register file -/

/-- Slot selected by index; an index outside the table reads as zero. -/
def MPU.slot (p : MPU) (i : Nat) : Slot := p.slots.getD i ⟨0, 0⟩

/-- Modelled from the spec: a store of a 32-bit word to one of the MPU
registers.  The region number register selects the slot the base-address and
size/attribute registers act on. -/
def MPU.write (p : MPU) (addr v : Nat) : MPU :=
  if addr = MPU_REG_CTRL then { p with ctrl := u32 v }
  else if addr = MPU_REG_RNR then { p with rnr := u32 v }
  else if addr = MPU_REG_RBAR then
    { p with slots := p.slots.set p.rnr { p.slot p.rnr with rbar := u32 v } }
  else if addr = MPU_REG_RLAR then
    { p with slots := p.slots.set p.rnr { p.slot p.rnr with rasr := u32 v } }
  else p

/-- Modelled from the spec: a load of one of the MPU registers; the type
register reports eight region slots. -/
def MPU.read (p : MPU) (addr : Nat) : Nat :=
  if addr = MPU_REG_TYPE then 0x800
  else if addr = MPU_REG_CTRL then p.ctrl
  else if addr = MPU_REG_RNR then p.rnr
  else if addr = MPU_REG_RBAR then (p.slot p.rnr).rbar
  else if addr = MPU_REG_RLAR then (p.slot p.rnr).rasr
  else 0

/-- Store through a pointer to a system register (`*registerAddr = v`). -/
def poke (addr v : Nat) (m : Machine) : Machine :=
  { m with mpu := m.mpu.write addr v }

/-- Load through a pointer to a system register (`*registerAddr`). -/
def peek (addr : Nat) (m : Machine) : Nat := m.mpu.read addr

/-- Modelled from the spec: the formatted-output sink; synchronous and
fault-free, it only appends to the log. -/
def logPrint (msg : LogMsg) (m : Machine) : Machine :=
  { m with log := m.log ++ [msg] }

/-! ## Configuration strategies -/

/-- `ManualConfigureRegion` of `main.c`: three register stores (slot
selector, base address, size/attribute word), each followed by a log line. -/
def ManualConfigureRegion (regionNumber regionBaseAddress regionSize
    accessPermission executeNever : Nat) (m : Machine) : Machine :=
  let regionNumber := u8 regionNumber
  let regionBaseAddress := u32 regionBaseAddress
  let regionSize := u8 regionSize
  let accessPermission := u8 accessPermission
  let executeNever := u8 executeNever
  let registerAddr := MPU_REG_RNR
  let m := poke registerAddr regionNumber m
  let registerAddr := MPU_REG_RBAR
  let m := poke registerAddr regionBaseAddress m
  let m := logPrint (.regValue registerAddr (peek registerAddr m)) m
  let registerAddr := MPU_REG_RLAR
  let registerValue := u32 (regionSize <<< 1)
  let registerValue := registerValue ||| u32 (accessPermission <<< 24)
  let registerValue := registerValue ||| u32 (executeNever <<< 28)
  let registerValue := registerValue ||| 1
  let m := poke registerAddr registerValue m
  logPrint (.regValue registerAddr (peek registerAddr m)) m

/-- The word `ManualConfigureRegion` stores to the size/attribute register
(lines 124-127 of `main.c`). -/
def manualRegisterValue (regionSize accessPermission executeNever : Nat) : Nat :=
  ((u32 (u8 regionSize <<< 1) ||| u32 (u8 accessPermission <<< 24))
    ||| u32 (u8 executeNever <<< 28)) ||| 1

/-- Modelled from the spec: the vendor macro `ARM_MPU_ACCESS_` is absent; it
builds the memory-attribute sub-fields of the size/attribute word. -/
def ARM_MPU_ACCESS_ (TypeExtField IsShareable IsCacheable IsBufferable : Nat) : Nat :=
  (u32 (TypeExtField <<< MPU_RASR_TEX_Pos) &&& MPU_RASR_TEX_Msk)
  ||| (u32 (IsShareable <<< MPU_RASR_S_Pos) &&& MPU_RASR_S_Msk)
  ||| (u32 (IsCacheable <<< MPU_RASR_C_Pos) &&& MPU_RASR_C_Msk)
  ||| (u32 (IsBufferable <<< MPU_RASR_B_Pos) &&& MPU_RASR_B_Msk)

/-- Modelled from the spec: the vendor macro `ARM_MPU_RASR_EX` is absent; the
structured strategy builds the size/attribute word through named sub-fields,
each shifted to its position and masked, with the enable bit set. -/
def ARM_MPU_RASR_EX (DisableExec AccessPermission AccessAttributes
    SubRegionDisable Size : Nat) : Nat :=
  (u32 (DisableExec <<< MPU_RASR_XN_Pos) &&& MPU_RASR_XN_Msk)
  ||| (u32 (AccessPermission <<< MPU_RASR_AP_Pos) &&& MPU_RASR_AP_Msk)
  ||| (AccessAttributes &&&
        (MPU_RASR_TEX_Msk ||| MPU_RASR_S_Msk ||| MPU_RASR_C_Msk ||| MPU_RASR_B_Msk))
  ||| (u32 (SubRegionDisable <<< MPU_RASR_SRD_Pos) &&& MPU_RASR_SRD_Msk)
  ||| (u32 (Size <<< MPU_RASR_SIZE_Pos) &&& MPU_RASR_SIZE_Msk)
  ||| MPU_RASR_ENABLE_Msk

/-- Modelled from the spec: the vendor macro `ARM_MPU_RASR` is absent; see
`ARM_MPU_RASR_EX`. -/
def ARM_MPU_RASR (DisableExec AccessPermission TypeExtField IsShareable
    IsCacheable IsBufferable SubRegionDisable Size : Nat) : Nat :=
  ARM_MPU_RASR_EX DisableExec AccessPermission
    (ARM_MPU_ACCESS_ TypeExtField IsShareable IsCacheable IsBufferable)
    SubRegionDisable Size

/-- Modelled from the spec: the vendor helper `ARM_MPU_SetRegionEx` is
absent; three sequential register writes: select slot, base address,
size/permission/enable word (the register `main.c` reaches through
`MPU_REG_RLAR`). -/
def ARM_MPU_SetRegionEx (rnr rbar rasr : Nat) (m : Machine) : Machine :=
  let m := poke MPU_REG_RNR rnr m
  let m := poke MPU_REG_RBAR rbar m
  poke MPU_REG_RLAR rasr m

/-- Modelled from the spec: the vendor helper `ARM_MPU_Enable` is absent; it
sets the global enable bit, the option flags being OR-ed into the control
word. -/
def ARM_MPU_Enable (MPU_Control : Nat) (m : Machine) : Machine :=
  poke MPU_REG_CTRL (MPU_Control ||| MPU_CTRL_ENABLE_Msk) m

/-- Modelled from the spec: the vendor helper `ARM_MPU_Disable` is absent; it
clears the global enable bit of the control word and nothing else. -/
def ARM_MPU_Disable (m : Machine) : Machine :=
  poke MPU_REG_CTRL (peek MPU_REG_CTRL m &&& (0xFFFFFFFF ^^^ MPU_CTRL_ENABLE_Msk)) m

/-! ## Core register accessors and handlers -/

/-- Privilege state of thread mode, derived from the "non-privileged" bit of
the control register. -/
def Machine.privileged (m : Machine) : Bool :=
  m.control &&& CONTROL_nPRIV_Msk == 0

/-- Modelled from the spec: the vendor accessor `__get_CONTROL` is absent; it
reads the control register of the execution context. -/
def __get_CONTROL (m : Machine) : Nat := m.control

/-- Modelled from the spec: the vendor accessor `__set_CONTROL` is absent; it
writes the control register of the execution context. -/
def __set_CONTROL (control : Nat) (m : Machine) : Machine :=
  { m with control := u32 control }

/-- Modelled from the spec: the vendor accessor `__set_PSP` is absent; it
writes the process stack pointer. -/
def __set_PSP (topOfProcStack : Nat) (m : Machine) : Machine :=
  { m with psp := u32 topOfProcStack }

/-- Modelled from the spec: the vendor accessor `__get_PSP` is absent. -/
def __get_PSP (m : Machine) : Nat := m.psp

/-- Modelled from the spec: the vendor accessor `__get_MSP` is absent. -/
def __get_MSP (m : Machine) : Nat := m.msp

/-- `SVC_Handler` of `main.c`: log, then clear the nPRIV bit of CONTROL. -/
def SVC_Handler (m : Machine) : Machine :=
  let m := logPrint .svcCall m
  __set_CONTROL (__get_CONTROL m &&& (0xFFFFFFFF ^^^ CONTROL_nPRIV_Msk)) m

/-- `MemManage_Handler` of `main.c` under the retry policy
(`MPU_USE_EXIT_HANDLER` not defined): log the fault record and its cause
flags, then disable the MPU. -/
def MemManage_Handler (m : Machine) : Machine :=
  let cfsr := m.cfsr
  let lrValue := m.lr
  let m := logPrint (.memManage (__get_CONTROL m) m.mmfar lrValue) m
  let m := if cfsr &&& SCB_CFSR_MMARVALID_Msk ≠ 0 then logPrint .attemptAccess m else m
  let m := if cfsr &&& SCB_CFSR_DACCVIOL_Msk ≠ 0 then logPrint .notPermitted m else m
  let m := if cfsr &&& SCB_CFSR_IACCVIOL_Msk ≠ 0 then logPrint .nonExecutable m else m
  let m := if cfsr &&& SCB_CFSR_MSTKERR_Msk ≠ 0 then logPrint .stackingError m else m
  ARM_MPU_Disable m

/-! ## Region tables -/

/-- `ManualInitMPU` of `main.c`. -/
def ManualInitMPU (m : Machine) : Machine :=
  let registerAddr := MPU_REG_TYPE
  let m := logPrint (.regValue registerAddr (peek registerAddr m)) m
  let registerAddr := MPU_REG_CTRL
  let m := poke registerAddr 0x0 m
  let m := logPrint (.regValue registerAddr (peek registerAddr m)) m
  let m := ManualConfigureRegion 0 0 0b10000 0b11 0 m
  let m := ManualConfigureRegion 1 0x20000000 0b01110 0b11 0 m
  let m := ManualConfigureRegion 2 0x20008000 0b01110 0b0 0 m
  let m := ManualConfigureRegion 3 0x2000C000 0b01101 0b11 1 m
  let registerAddr := MPU_REG_CTRL
  let m := poke registerAddr 0x7 m
  logPrint (.regValue registerAddr (peek registerAddr m)) m

/-- `CmsisInitMPU` of `main.c`. -/
def CmsisInitMPU (m : Machine) : Machine :=
  let m := ARM_MPU_Disable m
  let m := ARM_MPU_SetRegionEx 0 0x00000000
    (ARM_MPU_RASR 0 ARM_MPU_AP_FULL 0 0 0 0 0x00 ARM_MPU_REGION_SIZE_128KB) m
  let m := ARM_MPU_SetRegionEx 1 0x20000000
    (ARM_MPU_RASR 0 ARM_MPU_AP_FULL 0 0 0 0 0x00 ARM_MPU_REGION_SIZE_64KB) m
  let m := ARM_MPU_SetRegionEx 2 0x20010000
    (ARM_MPU_RASR 1 ARM_MPU_AP_NONE 0 0 0 0 0x00 ARM_MPU_REGION_SIZE_16KB) m
  let m := ARM_MPU_SetRegionEx 3 0x20014000
    (ARM_MPU_RASR 1 ARM_MPU_AP_FULL 0 0 0 0 0x00 ARM_MPU_REGION_SIZE_16KB) m
  let m := ARM_MPU_SetRegionEx 4 0x20018000
    (ARM_MPU_RASR 1 ARM_MPU_AP_PRO 0 0 0 0 0x00 ARM_MPU_REGION_SIZE_16KB) m
  let m := ARM_MPU_SetRegionEx 5 0x20020000
    (ARM_MPU_RASR 1 ARM_MPU_AP_PRIV 0 0 0 0 0x00 ARM_MPU_REGION_SIZE_16KB) m
  let m := ARM_MPU_SetRegionEx 6 0x20024000
    (ARM_MPU_RASR 1 ARM_MPU_AP_URO 0 0 0 0 0x00 ARM_MPU_REGION_SIZE_16KB) m
  let m := ARM_MPU_SetRegionEx 7 0x20028000
    (ARM_MPU_RASR 1 ARM_MPU_AP_RO 0 0 0 0 0x00 ARM_MPU_REGION_SIZE_16KB) m
  ARM_MPU_Enable
    (MPU_CTRL_PRIVDEFENA_Msk ||| MPU_CTRL_HFNMIENA_Msk ||| MPU_CTRL_ENABLE_Msk) m

/-! ## MPU access model -/

/-- What one execution context may do in a region. -/
inductive Right where
  | noAccess
  | readOnly
  | readWrite
deriving DecidableEq, Repr

/-- Whether a right admits an access of the given kind. -/
def Right.allows : Right → AccessKind → Bool
  | .noAccess, _ => false
  | .readOnly, .read => true
  | .readOnly, .write => false
  | .readWrite, _ => true

/-- Modelled from the spec: the permission table, as (privileged,
unprivileged) rights per permission code; a code outside the table grants
nothing. -/
def decodeAP (ap : Nat) : Right × Right :=
  if ap = ARM_MPU_AP_NONE then (.noAccess, .noAccess)
  else if ap = ARM_MPU_AP_PRIV then (.readWrite, .noAccess)
  else if ap = ARM_MPU_AP_URO then (.readWrite, .readOnly)
  else if ap = ARM_MPU_AP_FULL then (.readWrite, .readWrite)
  else if ap = ARM_MPU_AP_PRO then (.readOnly, .noAccess)
  else if ap = ARM_MPU_AP_RO then (.readOnly, .readOnly)
  else (.noAccess, .noAccess)

/-- Enable bit of a slot (bit 0 of the size/attribute word). -/
def Slot.enabled (s : Slot) : Bool := s.rasr &&& MPU_RASR_ENABLE_Msk != 0

/-- Size field of a slot (bits 1-5). -/
def Slot.sizeField (s : Slot) : Nat := (s.rasr &&& MPU_RASR_SIZE_Msk) >>> MPU_RASR_SIZE_Pos

/-- Access-permission field of a slot (bits 24-26). -/
def Slot.ap (s : Slot) : Nat := (s.rasr &&& MPU_RASR_AP_Msk) >>> MPU_RASR_AP_Pos

/-- Execute-never bit of a slot (bit 28). -/
def Slot.xn (s : Slot) : Nat := (s.rasr &&& MPU_RASR_XN_Msk) >>> MPU_RASR_XN_Pos

/-- Byte length of a slot: size field = log2(bytes) - 1. -/
def Slot.bytes (s : Slot) : Nat := 2 ^ (s.sizeField + 1)

/-- Modelled from the spec: an enabled slot covers the addresses that agree
with its base above the size boundary (the low bits of the base are ignored). -/
def Slot.covers (s : Slot) (addr : Nat) : Bool :=
  s.enabled && (addr / s.bytes == s.rbar / s.bytes)

/-- Modelled from the spec: among the slots from index `i` on, the one of
highest index that covers the address. -/
def governingFrom (addr : Nat) : Nat → List Slot → Option (Nat × Slot)
  | _, [] => none
  | i, s :: rest =>
    match governingFrom addr (i + 1) rest with
    | some r => some r
    | none => if s.covers addr then some (i, s) else none

/-- Modelled from the spec: the slot governing an address, highest index
wins. -/
def MPU.governing (p : MPU) (addr : Nat) : Option (Nat × Slot) :=
  governingFrom addr 0 p.slots

/-- Modelled from the spec: the MPU access check for a data access.  With the
global enable bit clear every access is permitted; otherwise the governing
slot decides by the permission table, and an address in no slot is permitted
only to privileged code under `privilegedDefaultEnable`. -/
def MPU.permits (p : MPU) (privileged : Bool) (addr : Nat) (k : AccessKind) : Bool :=
  if p.ctrl &&& MPU_CTRL_ENABLE_Msk = 0 then true
  else
    match p.governing addr with
    | some (_, s) =>
      (if privileged then (decodeAP s.ap).1 else (decodeAP s.ap).2).allows k
    | none => privileged && (p.ctrl &&& MPU_CTRL_PRIVDEFENA_Msk != 0)

/-- Modelled from the spec: exception entry for an MPU-detected data access
violation: the fault record is latched (data-access-violation and
address-valid flags, faulting address) and the link value is the exception
return code. -/
def memManageEntry (addr : Nat) (m : Machine) : Machine :=
  { m with
    cfsr := m.cfsr ||| SCB_CFSR_DACCVIOL_Msk ||| SCB_CFSR_MMARVALID_Msk
    mmfar := addr
    lr := 0xFFFFFFF9 }

/-- The effect of a permitted data access on memory: a write records the
stored word, a read changes nothing. -/
def perform (addr : Nat) (k : AccessKind) (v : Nat) (m : Machine) : Machine :=
  match k with
  | .read => m
  | .write => { m with mem := (addr, u32 v) :: m.mem }

/-- Modelled from the spec: one data access instruction.  A denied attempt
traps into `MemManage_Handler` and the instruction is then re-executed; each
re-execution costs one unit of fuel. -/
def attempt : Nat → Nat → AccessKind → Nat → Machine → Option Machine
  | 0, _, _, _, _ => none
  | fuel + 1, addr, k, v, m =>
    if m.mpu.permits m.privileged addr k then some (perform addr k v m)
    else attempt fuel addr k v (MemManage_Handler (memManageEntry addr m))

/-- A scripted data access: the observation of the first attempt is recorded,
then the access runs. -/
def access (fuel addr : Nat) (k : AccessKind) (v : Nat) (m : Machine) : Option Machine :=
  let ev : AccessEvent :=
    { addr := addr, kind := k, privileged := m.privileged,
      mpuEnabled := m.mpu.ctrl &&& MPU_CTRL_ENABLE_Msk != 0,
      trapped := !(m.mpu.permits m.privileged addr k) }
  attempt fuel addr k v { m with trace := m.trace ++ [ev] }

/-- Store of a word through a data pointer (`*p = v`). -/
def store (fuel addr v : Nat) (m : Machine) : Option Machine :=
  access fuel addr .write v m

/-- Load of a word through a data pointer (`x = *p`); the value read is
discarded by the source. -/
def load (fuel addr : Nat) (m : Machine) : Option Machine :=
  access fuel addr .read 0 m

/-- Modelled from the spec: the supervisor-call instruction traps into
`SVC_Handler`, whatever its call number, with the exception return code as
link value. -/
def svc (_imm : Nat) (m : Machine) : Machine :=
  SVC_Handler { m with lr := 0xFFFFFFF9 }

/-! ## Region exercise harness and entry point -/

/-- The re-enable step of `accessRegionsMPU`, by harness mode. -/
def reEnable (manualConfiguration : Int) (m : Machine) : Machine :=
  if manualConfiguration ≠ 0 then
    let registerAddr := MPU_REG_CTRL
    poke registerAddr 0x7 m
  else
    ARM_MPU_Enable
      (MPU_CTRL_PRIVDEFENA_Msk ||| MPU_CTRL_HFNMIENA_Msk ||| MPU_CTRL_ENABLE_Msk) m

/-- The privileged part of `accessRegionsMPU` of `main.c` (lines 295-381). -/
def accessRegionsPrivileged (fuel : Nat) (manualConfiguration : Int) (m : Machine) :
    Option Machine := do
  let addrRegion2 := 0x20010000
  let addrRegion3 := 0x20014000
  let addrRegion4 := 0x20018000
  let addrRegion5 := 0x20020000
  let addrRegion6 := 0x20024000
  let addrRegion7 := 0x20028000
  let m ← store fuel addrRegion2 0 m
  let m := reEnable manualConfiguration m
  let m ← load fuel addrRegion2 m
  let m := reEnable manualConfiguration m
  let m ← store fuel addrRegion3 0 m
  let m ← load fuel addrRegion3 m
  let m ← load fuel addrRegion4 m
  let m ← store fuel addrRegion4 0 m
  let m := reEnable manualConfiguration m
  let m ← store fuel addrRegion5 0 m
  let m ← load fuel addrRegion5 m
  let m ← store fuel addrRegion6 0 m
  let m ← load fuel addrRegion6 m
  let m ← store fuel addrRegion7 0 m
  let m := reEnable manualConfiguration m
  load fuel addrRegion7 m

/-- `accessRegionsMPU` of `main.c`: the privileged script, then the drop to
unprivileged thread mode, one more store and the supervisor call.  The `ISB`
barrier between the drop and the store has no effect on the modelled state. -/
def accessRegionsMPU (fuel : Nat) (manualConfiguration : Int) (m : Machine) :
    Option Machine := do
  let addrRegion7 := 0x20028000
  let m ← accessRegionsPrivileged fuel manualConfiguration m
  let m := logPrint .endingPrivilege m
  let m := __set_CONTROL (__get_CONTROL m ||| CONTROL_nPRIV_Msk) m
  let m ← store fuel addrRegion7 0 m
  pure (svc 8 m)

/-- `main` of `main.c`. -/
def main (fuel : Nat) (m : Machine) : Option (Int × Machine) := do
  let m := __set_PSP 0x20000000 m
  let m := logPrint (.controlPspMsp (__get_CONTROL m) (__get_PSP m) (__get_MSP m)) m
  let m := CmsisInitMPU m
  let m ← accessRegionsMPU fuel 0 m
  pure (0, m)

/-- Modelled from the spec: the machine at boot: privileged thread mode, MPU
off, every slot disabled, no fault latched. -/
def bootMachine : Machine :=
  { mpu := { ctrl := 0, rnr := 0, slots := List.replicate 8 ⟨0, 0⟩ }
    control := 0, cfsr := 0, mmfar := 0, lr := 0xFFFFFFFF
    psp := 0, msp := 0, mem := [], log := [], trace := [] }

/-- The data accesses `accessRegionsMPU` performs, in program order (lines
305-390 of `main.c`). -/
def scriptedAccesses : List (Nat × AccessKind) :=
  [(0x20010000, .write), (0x20010000, .read),
   (0x20014000, .write), (0x20014000, .read),
   (0x20018000, .read), (0x20018000, .write),
   (0x20020000, .write), (0x20020000, .read),
   (0x20024000, .write), (0x20024000, .read),
   (0x20028000, .write), (0x20028000, .read),
   (0x20028000, .write)]

/-! ## Proof vocabulary -/

/-- Slot by slot, the same contents or both disabled. -/
def slotsAlike : List Slot → List Slot → Prop
  | [], [] => True
  | a :: as, b :: bs => (a = b ∨ (a.enabled = false ∧ b.enabled = false)) ∧ slotsAlike as bs
  | _, _ => False

/-- Two register files with the same control word and alike slots. -/
def MPU.alike (p q : MPU) : Prop :=
  p.ctrl = q.ctrl ∧ slotsAlike p.slots q.slots

/-- A relation on register files under which the control word and the access
check coincide and which stores to the control word preserve. -/
structure AccessBlind (R : MPU → MPU → Prop) : Prop where
  ctrl_eq : ∀ p q, R p q → p.ctrl = q.ctrl
  permits_eq : ∀ p q, R p q → ∀ priv addr k, p.permits priv addr k = q.permits priv addr k
  write_ctrl : ∀ p q, R p q → ∀ v, R (p.write MPU_REG_CTRL v) (q.write MPU_REG_CTRL v)

/-- Two machines agree on what the access script depends on, the register
file up to `R` and the privilege level, and the first has observed, after the
accesses `pre`, the accesses the second has observed. -/
def Agree (R : MPU → MPU → Prop) (pre : List AccessEvent) (m c : Machine) : Prop :=
  R m.mpu c.mpu ∧ m.privileged = c.privileged ∧ m.trace = pre ++ c.trace

/-- Sequential composition of a list of fallible steps. -/
def seqSteps : List (Machine → Option Machine) → Machine → Option Machine
  | [], m => some m
  | f :: fs, m => (f m).bind (seqSteps fs)

/-- A step maps agreeing machines to agreeing machines, and succeeds on the
first whenever it succeeds on the second. -/
def Respects (R : MPU → MPU → Prop) (f : Machine → Option Machine) : Prop :=
  ∀ pre m c, Agree R pre m c → ∀ c', f c = some c' → ∃ m', f m = some m' ∧ Agree R pre m' c'

/-! ## Auxiliary facts -/

theorem u32_lt (n : Nat) : u32 n < 2 ^ 32 := Nat.mod_lt _ (by decide)

theorem u32_of_lt {n : Nat} (h : n < 2 ^ 32) : u32 n = n := Nat.mod_eq_of_lt h

theorem u32_u32 (n : Nat) : u32 (u32 n) = u32 n := u32_of_lt (u32_lt n)

theorem u8_of_lt {n : Nat} (h : n < 2 ^ 8) : u8 n = n := Nat.mod_eq_of_lt h

theorem manualRegisterValue_lt (s a x : Nat) : manualRegisterValue s a x < 2 ^ 32 := by
  unfold manualRegisterValue
  exact Nat.or_lt_two_pow (Nat.or_lt_two_pow (Nat.or_lt_two_pow (u32_lt _) (u32_lt _))
    (u32_lt _)) (by decide)

/-- The register file after `ManualConfigureRegion`, as three stores. -/
theorem ManualConfigureRegion_mpu (n b s a x : Nat) (m : Machine) :
    (ManualConfigureRegion n b s a x m).mpu =
      ((m.mpu.write MPU_REG_RNR (u8 n)).write MPU_REG_RBAR (u32 b)).write MPU_REG_RLAR
        (manualRegisterValue s a x) := rfl

/-- The register file after `ARM_MPU_SetRegionEx`, as three stores. -/
theorem ARM_MPU_SetRegionEx_mpu (rnr rbar rasr : Nat) (m : Machine) :
    (ARM_MPU_SetRegionEx rnr rbar rasr m).mpu =
      ((m.mpu.write MPU_REG_RNR rnr).write MPU_REG_RBAR rbar).write MPU_REG_RLAR rasr := rfl

theorem write_RBAR_u32 (p : MPU) (b : Nat) :
    p.write MPU_REG_RBAR (u32 b) = p.write MPU_REG_RBAR b := by
  simp [MPU.write, MPU_REG_RBAR, MPU_REG_CTRL, MPU_REG_RNR, u32_u32]

set_option maxRecDepth 100000 in
theorem manualRegisterValue_eq_RASR :
    ∀ s < 32, ∀ a < 8, ∀ x < 2,
      manualRegisterValue s a x = ARM_MPU_RASR x a 0 0 0 0 0 s := by
  decide

set_option maxRecDepth 100000 in
theorem manualRegisterValue_layout :
    ∀ s < 32, ∀ a < 8, ∀ x < 2,
      manualRegisterValue s a x &&& 1 = 1 ∧
      (manualRegisterValue s a x >>> 1) &&& 0x1F = s ∧
      (manualRegisterValue s a x >>> 24) &&& 0x7 = a ∧
      (manualRegisterValue s a x >>> 28) &&& 0x1 = x ∧
      manualRegisterValue s a x &&& (0xFFFFFFFF ^^^ (0x1 ||| 0x3E ||| 0x7000000 ||| 0x10000000)) = 0 ∧
      manualRegisterValue s a x = 1 + 2 * s + 2 ^ 24 * a + 2 ^ 28 * x := by
  decide

/-! ## Configuration strategies (C1, C2, C3) -/

/-- C1: for every slot n in 0..7, base address b, size code s <= 31, access
permission a <= 7 and execute-never flag x in 0..1, the manual strategy and
the structured strategy leave the same MPU register file: region number,
base-address and size/attribute contents of every slot, and control word. -/
theorem manual_structured_bit_identical (m : Machine) (n b s a x : Nat)
    (hn : n ≤ 7) (hs : s ≤ 31) (ha : a ≤ 7) (hx : x ≤ 1) :
    (ManualConfigureRegion n b s a x m).mpu =
      (ARM_MPU_SetRegionEx n b (ARM_MPU_RASR x a 0 0 0 0 0 s) m).mpu := by
  rw [ManualConfigureRegion_mpu, ARM_MPU_SetRegionEx_mpu, write_RBAR_u32,
    u8_of_lt (by omega : n < 2 ^ 8),
    manualRegisterValue_eq_RASR s (by omega) a (by omega) x (by omega)]

theorem manual_structured_bit_identical_witness :
    (ManualConfigureRegion 2 0x20010000 13 0 1 bootMachine).mpu =
      (ARM_MPU_SetRegionEx 2 0x20010000 (ARM_MPU_RASR 1 0 0 0 0 0 0 13) bootMachine).mpu :=
  manual_structured_bit_identical bootMachine 2 0x20010000 13 0 1
    (by decide) (by decide) (by decide) (by decide)

/-- C2: for every size code s <= 31, access permission a <= 7 and
execute-never flag x in 0..1, `ManualConfigureRegion` stores to the
size/attribute register a 32-bit word with bit 0 set, bits 1-5 equal to s,
bits 24-26 equal to a, bit 28 equal to x and every other bit zero. -/
theorem manual_word_layout (m : Machine) (n b s a x : Nat)
    (hs : s ≤ 31) (ha : a ≤ 7) (hx : x ≤ 1) :
    (ManualConfigureRegion n b s a x m).mpu =
      ((m.mpu.write MPU_REG_RNR (u8 n)).write MPU_REG_RBAR (u32 b)).write MPU_REG_RLAR
        (manualRegisterValue s a x) ∧
    manualRegisterValue s a x < 2 ^ 32 ∧
    manualRegisterValue s a x &&& 1 = 1 ∧
    (manualRegisterValue s a x >>> 1) &&& 0x1F = s ∧
    (manualRegisterValue s a x >>> 24) &&& 0x7 = a ∧
    (manualRegisterValue s a x >>> 28) &&& 0x1 = x ∧
    manualRegisterValue s a x &&&
      (0xFFFFFFFF ^^^ (0x1 ||| 0x3E ||| 0x7000000 ||| 0x10000000)) = 0 ∧
    manualRegisterValue s a x = 1 + 2 * s + 2 ^ 24 * a + 2 ^ 28 * x :=
  ⟨ManualConfigureRegion_mpu n b s a x m, manualRegisterValue_lt s a x,
    manualRegisterValue_layout s (by omega) a (by omega) x (by omega)⟩

theorem manual_word_layout_witness :
    (ManualConfigureRegion 3 0x2000C000 13 3 1 bootMachine).mpu =
      ((bootMachine.mpu.write MPU_REG_RNR (u8 3)).write MPU_REG_RBAR (u32 0x2000C000)).write
        MPU_REG_RLAR (manualRegisterValue 13 3 1) ∧
    manualRegisterValue 13 3 1 < 2 ^ 32 ∧
    manualRegisterValue 13 3 1 &&& 1 = 1 ∧
    (manualRegisterValue 13 3 1 >>> 1) &&& 0x1F = 13 ∧
    (manualRegisterValue 13 3 1 >>> 24) &&& 0x7 = 3 ∧
    (manualRegisterValue 13 3 1 >>> 28) &&& 0x1 = 1 ∧
    manualRegisterValue 13 3 1 &&&
      (0xFFFFFFFF ^^^ (0x1 ||| 0x3E ||| 0x7000000 ||| 0x10000000)) = 0 ∧
    manualRegisterValue 13 3 1 = 1 + 2 * 13 + 2 ^ 24 * 3 + 2 ^ 28 * 1 :=
  manual_word_layout bootMachine 3 0x2000C000 13 3 1 (by decide) (by decide) (by decide)

/-- C3, as the code behaves: `ManualConfigureRegion` has no alignment check
and no failure result.  For every slot n in 0..7 and every 32-bit base
address b, aligned or not, it stores n to the region-number register and b
and the size/attribute word to slot n, leaving the other slots and the
control word as they were. -/
theorem manual_configure_writes_unconditionally (m : Machine) (n b s a x : Nat)
    (hlen : m.mpu.slots.length = 8) (hn : n ≤ 7) (hb : b < 2 ^ 32) :
    (ManualConfigureRegion n b s a x m).mpu.rnr = n ∧
    (ManualConfigureRegion n b s a x m).mpu.slot n = ⟨b, manualRegisterValue s a x⟩ ∧
    (∀ j, j ≠ n → (ManualConfigureRegion n b s a x m).mpu.slot j = m.mpu.slot j) ∧
    (ManualConfigureRegion n b s a x m).mpu.ctrl = m.mpu.ctrl := by
  have h8 : u8 n = n := u8_of_lt (by omega)
  have hn32 : u32 n = n := u32_of_lt (by omega)
  have hw : u32 (manualRegisterValue s a x) = manualRegisterValue s a x :=
    u32_of_lt (manualRegisterValue_lt s a x)
  have hlt : n < m.mpu.slots.length := by omega
  rw [ManualConfigureRegion_mpu, h8]
  refine ⟨?_, ?_, ?_, ?_⟩
  · simp [MPU.write, MPU_REG_RNR, MPU_REG_RBAR, MPU_REG_RLAR, MPU_REG_CTRL, hn32]
  · simp [MPU.write, MPU.slot, MPU_REG_RNR, MPU_REG_RBAR, MPU_REG_RLAR, MPU_REG_CTRL, hn32,
      hw, u32_of_lt hb, hlt, List.getD_eq_getElem?_getD]
  · intro j hj
    simp [MPU.write, MPU.slot, MPU_REG_RNR, MPU_REG_RBAR, MPU_REG_RLAR, MPU_REG_CTRL, hn32,
      List.getD_eq_getElem?_getD, List.getElem?_set, Ne.symm hj]
  · simp [MPU.write, MPU_REG_RNR, MPU_REG_RBAR, MPU_REG_RLAR, MPU_REG_CTRL]

theorem manual_configure_writes_unconditionally_witness :
    ¬ (2 ^ (13 + 1) ∣ 0x20002000) ∧
    (ManualConfigureRegion 1 0x20002000 13 3 0 bootMachine).mpu.rnr = 1 ∧
    (ManualConfigureRegion 1 0x20002000 13 3 0 bootMachine).mpu.slot 1 =
      ⟨0x20002000, manualRegisterValue 13 3 0⟩ ∧
    (∀ j, j ≠ 1 →
      (ManualConfigureRegion 1 0x20002000 13 3 0 bootMachine).mpu.slot j =
        bootMachine.mpu.slot j) ∧
    (ManualConfigureRegion 1 0x20002000 13 3 0 bootMachine).mpu.ctrl = bootMachine.mpu.ctrl :=
  ⟨by decide,
    manual_configure_writes_unconditionally bootMachine 1 0x20002000 13 3 0
      (by decide) (by decide) (by decide)⟩

/-- C3, as stated, fails: the base address 0x20002000 is not a multiple of
the 16 KB (size code 13) region length, yet `ManualConfigureRegion` changes
the region-number register, the base-address register and the size/attribute
register of the selected slot. -/
theorem misaligned_base_is_written :
    ¬ (2 ^ (13 + 1) ∣ 0x20002000) ∧
    bootMachine.mpu.rnr = 0 ∧ bootMachine.mpu.slot 1 = ⟨0, 0⟩ ∧
    (ManualConfigureRegion 1 0x20002000 13 3 0 bootMachine).mpu.rnr = 1 ∧
    (ManualConfigureRegion 1 0x20002000 13 3 0 bootMachine).mpu.slot 1 =
      ⟨0x20002000, 0x0300001B⟩ ∧
    (ManualConfigureRegion 1 0x20002000 13 3 0 bootMachine).mpu ≠ bootMachine.mpu := by
  decide

/-! ## Handlers (C5, C6) -/

theorem testBit_clear_mask (i : Nat) :
    (0xFFFFFFFF ^^^ 1 : Nat).testBit i = (decide (i ≠ 0) && decide (i < 32)) := by
  by_cases h : i < 32
  · interval_cases i <;> decide
  · have hlt : (0xFFFFFFFF ^^^ 1 : Nat) < 2 ^ i :=
      lt_of_lt_of_le (by decide : (0xFFFFFFFF ^^^ 1 : Nat) < 2 ^ 32)
        (Nat.pow_le_pow_right (by decide) (by omega))
    rw [Nat.testBit_lt_two_pow hlt]
    simp [h]

theorem testBit_clear_bit0 (c i : Nat) :
    (u32 (c &&& (0xFFFFFFFF ^^^ 1))).testBit i =
      (decide (i ≠ 0) && decide (i < 32) && c.testBit i) := by
  unfold u32
  rw [Nat.testBit_mod_two_pow, Nat.testBit_and, testBit_clear_mask]
  by_cases h0 : i = 0 <;> by_cases h32 : i < 32 <;> simp [h0, h32]

theorem clear_bit0_and_one (c : Nat) : u32 (c &&& (0xFFFFFFFF ^^^ 1)) &&& 1 = 0 := by
  have h := testBit_clear_bit0 c 0
  rw [Nat.and_one_is_mod]
  rw [Nat.testBit_zero] at h
  generalize u32 (c &&& (0xFFFFFFFF ^^^ 1)) = y at h ⊢
  simp at h
  omega

theorem clear_bit0_of_even {c : Nat} (hc : c < 2 ^ 32) (h : c &&& 1 = 0) :
    u32 (c &&& (0xFFFFFFFF ^^^ 1)) = c := by
  apply Nat.eq_of_testBit_eq
  intro i
  rw [testBit_clear_bit0]
  by_cases h0 : i = 0
  · subst h0
    rw [Nat.and_one_is_mod] at h
    simp [Nat.testBit_zero, h]
  · by_cases h32 : i < 32
    · simp [h0, h32]
    · have hlt : c < 2 ^ i :=
        lt_of_lt_of_le hc (Nat.pow_le_pow_right (by decide) (by omega))
      simp [h0, h32, Nat.testBit_lt_two_pow hlt]

/-- The register file after `MemManage_Handler`: one store to the control
word, whatever the cause flags. -/
theorem MemManage_Handler_mpu (m : Machine) :
    (MemManage_Handler m).mpu =
      m.mpu.write MPU_REG_CTRL (m.mpu.ctrl &&& (0xFFFFFFFF ^^^ MPU_CTRL_ENABLE_Msk)) := by
  unfold MemManage_Handler
  simp only []
  split_ifs <;> rfl

theorem MemManage_Handler_control (m : Machine) :
    (MemManage_Handler m).control = m.control := by
  unfold MemManage_Handler
  simp only []
  split_ifs <;> rfl

theorem MemManage_Handler_trace (m : Machine) :
    (MemManage_Handler m).trace = m.trace := by
  unfold MemManage_Handler
  simp only []
  split_ifs <;> rfl

theorem MemManage_Handler_ctrl (m : Machine) :
    (MemManage_Handler m).mpu.ctrl = u32 (m.mpu.ctrl &&& (0xFFFFFFFF ^^^ 1)) := by
  rw [MemManage_Handler_mpu]
  rfl

/-- C5: under the retry policy, for every prior machine state (every MPU
state, every combination of fault-status cause flags), `MemManage_Handler`
leaves the MPU global enable bit cleared, the other bits of the control word,
the region-number register and every region slot (base-address and
size/attribute word, hence each region enable bit) unchanged. -/
theorem memmanage_disables_and_preserves_regions (m : Machine) :
    (MemManage_Handler m).mpu.ctrl &&& MPU_CTRL_ENABLE_Msk = 0 ∧
    (∀ i, (MemManage_Handler m).mpu.ctrl.testBit i =
      (decide (i ≠ 0) && decide (i < 32) && m.mpu.ctrl.testBit i)) ∧
    (MemManage_Handler m).mpu.slots = m.mpu.slots ∧
    (∀ i, ((MemManage_Handler m).mpu.slot i).rbar = (m.mpu.slot i).rbar ∧
      ((MemManage_Handler m).mpu.slot i).rasr = (m.mpu.slot i).rasr ∧
      ((MemManage_Handler m).mpu.slot i).enabled = (m.mpu.slot i).enabled) ∧
    (MemManage_Handler m).mpu.rnr = m.mpu.rnr := by
  have hs : (MemManage_Handler m).mpu.slots = m.mpu.slots := by
    rw [MemManage_Handler_mpu]; rfl
  have hslot : ∀ i, (MemManage_Handler m).mpu.slot i = m.mpu.slot i := by
    intro i; unfold MPU.slot; rw [hs]
  refine ⟨?_, ?_, hs, ?_, ?_⟩
  · rw [MemManage_Handler_ctrl]; exact clear_bit0_and_one _
  · intro i; rw [MemManage_Handler_ctrl]; exact testBit_clear_bit0 _ i
  · intro i; rw [hslot i]; exact ⟨rfl, rfl, rfl⟩
  · rw [MemManage_Handler_mpu]; rfl

/-- C6: for every 32-bit value of CONTROL and every supervisor-call number,
`SVC_Handler` leaves CONTROL with the nPRIV bit cleared and all other bits
unchanged; invoked while already privileged it leaves CONTROL unchanged, and
invoking it twice leaves the same CONTROL as invoking it once. -/
theorem svc_handler_clears_nPRIV (m : Machine) (imm : Nat) (hc : m.control < 2 ^ 32) :
    (∀ i, (SVC_Handler m).control.testBit i = (decide (i ≠ 0) && m.control.testBit i)) ∧
    (SVC_Handler m).control &&& CONTROL_nPRIV_Msk = 0 ∧
    (svc imm m).control = (SVC_Handler m).control ∧
    (m.control &&& CONTROL_nPRIV_Msk = 0 → (SVC_Handler m).control = m.control) ∧
    (SVC_Handler (SVC_Handler m)).control = (SVC_Handler m).control ∧
    (svc imm (svc imm m)).control = (svc imm m).control := by
  have hval : ∀ k : Machine, (SVC_Handler k).control = u32 (k.control &&& (0xFFFFFFFF ^^^ 1)) :=
    fun _ => rfl
  have hsvc : ∀ k : Machine, (svc imm k).control = (SVC_Handler k).control := fun _ => rfl
  have hzero : ∀ k : Machine, (SVC_Handler k).control &&& 1 = 0 := by
    intro k; rw [hval]; exact clear_bit0_and_one _
  have hidem : ∀ k : Machine, (SVC_Handler (SVC_Handler k)).control = (SVC_Handler k).control := by
    intro k
    rw [hval (SVC_Handler k)]
    exact clear_bit0_of_even (by rw [hval]; exact u32_lt _) (hzero k)
  refine ⟨?_, hzero m, hsvc m, ?_, hidem m, ?_⟩
  · intro i
    rw [hval, testBit_clear_bit0]
    by_cases h32 : i < 32
    · simp [h32]
    · have hlt : m.control < 2 ^ i :=
        lt_of_lt_of_le hc (Nat.pow_le_pow_right (by decide) (by omega))
      simp [h32, Nat.testBit_lt_two_pow hlt]
  · intro h
    rw [hval]
    exact clear_bit0_of_even hc h
  · rw [hsvc, hsvc]
    exact hidem _

theorem svc_handler_clears_nPRIV_witness :
    (∀ i, (SVC_Handler { bootMachine with control := 3 }).control.testBit i =
      (decide (i ≠ 0) && (3 : Nat).testBit i)) ∧
    (SVC_Handler { bootMachine with control := 3 }).control &&& CONTROL_nPRIV_Msk = 0 ∧
    (svc 8 { bootMachine with control := 3 }).control =
      (SVC_Handler { bootMachine with control := 3 }).control ∧
    ((3 : Nat) &&& CONTROL_nPRIV_Msk = 0 →
      (SVC_Handler { bootMachine with control := 3 }).control = 3) ∧
    (SVC_Handler (SVC_Handler { bootMachine with control := 3 })).control =
      (SVC_Handler { bootMachine with control := 3 }).control ∧
    (svc 8 (svc 8 { bootMachine with control := 3 })).control =
      (svc 8 { bootMachine with control := 3 }).control :=
  svc_handler_clears_nPRIV { bootMachine with control := 3 } 8 (by decide)

/-! ## The access instruction and the script -/

theorem poke_mpu (addr v : Nat) (m : Machine) : (poke addr v m).mpu = m.mpu.write addr v := rfl

theorem permits_of_disabled (p : MPU) (h : p.ctrl &&& MPU_CTRL_ENABLE_Msk = 0)
    (priv : Bool) (addr : Nat) (k : AccessKind) : p.permits priv addr k = true := by
  simp [MPU.permits, h]

/-- Two units of fuel always suffice: after the handler has run the MPU is
off and the re-executed access is permitted. -/
theorem attempt_succ_succ (n addr : Nat) (k : AccessKind) (v : Nat) (m : Machine) :
    attempt (n + 2) addr k v m =
      some (if m.mpu.permits m.privileged addr k then perform addr k v m
        else perform addr k v (MemManage_Handler (memManageEntry addr m))) := by
  by_cases h : m.mpu.permits m.privileged addr k = true
  · simp [attempt, h]
  · have hoff : (MemManage_Handler (memManageEntry addr m)).mpu.permits
        (MemManage_Handler (memManageEntry addr m)).privileged addr k = true :=
      permits_of_disabled _ (by rw [MemManage_Handler_ctrl]; exact clear_bit0_and_one _) _ _ _
    simp [attempt, h, hoff]

theorem access_fuel (n addr : Nat) (k : AccessKind) (v : Nat) (m : Machine) :
    access (n + 2) addr k v m = access 2 addr k v m := by
  unfold access
  rw [attempt_succ_succ n, attempt_succ_succ 0]

theorem store_fuel (n addr v : Nat) (m : Machine) :
    store (n + 2) addr v m = store 2 addr v m := access_fuel n addr .write v m

theorem load_fuel (n addr : Nat) (m : Machine) :
    load (n + 2) addr m = load 2 addr m := access_fuel n addr .read 0 m

theorem accessRegionsPrivileged_fuel (n : Nat) (mc : Int) (m : Machine) :
    accessRegionsPrivileged (n + 2) mc m = accessRegionsPrivileged 2 mc m := by
  unfold accessRegionsPrivileged
  simp only [store_fuel, load_fuel]

theorem accessRegionsMPU_fuel (n : Nat) (mc : Int) (m : Machine) :
    accessRegionsMPU (n + 2) mc m = accessRegionsMPU 2 mc m := by
  unfold accessRegionsMPU
  simp only [store_fuel, accessRegionsPrivileged_fuel]

theorem main_fuel (n : Nat) (m : Machine) : main (n + 2) m = main 2 m := by
  unfold main
  simp only [accessRegionsMPU_fuel]

theorem reEnable_of_ne_zero {mc : Int} (h : mc ≠ 0) : reEnable mc = reEnable 1 := by
  funext m
  simp [reEnable, h]

theorem accessRegionsMPU_of_ne_zero (fuel : Nat) {mc : Int} (h : mc ≠ 0) (m : Machine) :
    accessRegionsMPU fuel mc m = accessRegionsMPU fuel 1 m := by
  unfold accessRegionsMPU accessRegionsPrivileged
  simp only [reEnable_of_ne_zero h]

/-! ## Independence of the script from the rest of the machine -/

theorem accessBlind_eq : AccessBlind Eq :=
  ⟨fun _ _ h => by rw [h], fun _ _ h _ _ _ => by rw [h], fun _ _ h _ => by rw [h]⟩

theorem governingFrom_alike (addr : Nat) :
    ∀ (l1 l2 : List Slot) (i : Nat), slotsAlike l1 l2 →
      governingFrom addr i l1 = governingFrom addr i l2
  | [], [], _, _ => rfl
  | [], _ :: _, _, h => False.elim h
  | _ :: _, [], _, h => False.elim h
  | a :: as, b :: bs, i, h => by
    obtain ⟨hab, hrest⟩ := h
    have ih := governingFrom_alike addr as bs (i + 1) hrest
    unfold governingFrom
    rw [ih]
    rcases hab with rfl | ⟨ha, hb⟩
    · rfl
    · simp [Slot.covers, ha, hb]

theorem accessBlind_alike : AccessBlind MPU.alike := by
  refine ⟨fun _ _ h => h.1, ?_, ?_⟩
  · intro p q h priv addr k
    unfold MPU.permits MPU.governing
    rw [h.1, governingFrom_alike addr p.slots q.slots 0 h.2]
  · intro p q h v
    exact ⟨rfl, h.2⟩

theorem respects_total (R : MPU → MPU → Prop) (f : Machine → Machine)
    (hf : ∀ pre m c, Agree R pre m c → Agree R pre (f m) (f c)) :
    Respects R (fun m => some (f m)) := by
  intro pre m c h c' hc
  cases hc
  exact ⟨f m, rfl, hf pre m c h⟩

theorem respects_attempt {R : MPU → MPU → Prop} (hR : AccessBlind R)
    (fuel addr : Nat) (k : AccessKind) (v : Nat) :
    Respects R (attempt fuel addr k v) := by
  induction fuel with
  | zero => intro pre m c _ c' hc; simp [attempt] at hc
  | succ n ih =>
    intro pre m c h c' hc
    obtain ⟨hmpu, hpriv, htrace⟩ := h
    unfold attempt at hc ⊢
    rw [hR.permits_eq _ _ hmpu, hpriv]
    by_cases hp : c.mpu.permits c.privileged addr k = true
    · rw [if_pos hp] at hc ⊢
      cases hc
      refine ⟨_, rfl, ?_⟩
      cases k
      · exact ⟨hmpu, hpriv, htrace⟩
      · exact ⟨hmpu, hpriv, htrace⟩
    · rw [if_neg hp] at hc ⊢
      refine ih pre _ _ ⟨?_, ?_, ?_⟩ c' hc
      · rw [MemManage_Handler_mpu, MemManage_Handler_mpu]
        show R (m.mpu.write _ (m.mpu.ctrl &&& _)) (c.mpu.write _ (c.mpu.ctrl &&& _))
        rw [hR.ctrl_eq _ _ hmpu]
        exact hR.write_ctrl _ _ hmpu _
      · unfold Machine.privileged
        rw [MemManage_Handler_control, MemManage_Handler_control]
        exact hpriv
      · rw [MemManage_Handler_trace, MemManage_Handler_trace]
        exact htrace

theorem respects_access {R : MPU → MPU → Prop} (hR : AccessBlind R)
    (fuel addr : Nat) (k : AccessKind) (v : Nat) :
    Respects R (access fuel addr k v) := by
  intro pre m c h c' hc
  obtain ⟨hmpu, hpriv, htrace⟩ := h
  unfold access at hc ⊢
  simp only [] at hc ⊢
  refine respects_attempt hR fuel addr k v pre
    { m with trace := m.trace ++ _ } { c with trace := c.trace ++ _ } ⟨hmpu, hpriv, ?_⟩ c' hc
  show m.trace ++ _ = pre ++ (c.trace ++ _)
  rw [htrace, hR.ctrl_eq _ _ hmpu, hR.permits_eq _ _ hmpu, hpriv, List.append_assoc]

theorem respects_reEnable {R : MPU → MPU → Prop} (hR : AccessBlind R) (mc : Int) :
    Respects R (fun m => some (reEnable mc m)) := by
  apply respects_total
  intro pre m c h
  obtain ⟨hmpu, hpriv, htrace⟩ := h
  refine ⟨?_, ?_, ?_⟩
  · unfold reEnable
    split_ifs
    · exact hR.write_ctrl _ _ hmpu _
    · exact hR.write_ctrl _ _ hmpu _
  · unfold reEnable
    split_ifs <;> exact hpriv
  · unfold reEnable
    split_ifs <;> exact htrace

theorem respects_seqSteps (R : MPU → MPU → Prop) (fs : List (Machine → Option Machine))
    (h : ∀ f ∈ fs, Respects R f) : Respects R (seqSteps fs) := by
  induction fs with
  | nil =>
    intro pre m c hag c' hc
    cases hc
    exact ⟨m, rfl, hag⟩
  | cons f fs ih =>
    intro pre m c hag c' hc
    unfold seqSteps at hc ⊢
    obtain ⟨c1, hc1, hc2⟩ := Option.bind_eq_some.mp hc
    obtain ⟨m1, hm1, hag1⟩ := h f (List.mem_cons_self f fs) pre m c hag c1 hc1
    obtain ⟨m2, hm2, hag2⟩ :=
      ih (fun g hg => h g (List.mem_cons_of_mem f hg)) pre m1 c1 hag1 c' hc2
    exact ⟨m2, by rw [hm1]; exact hm2, hag2⟩

theorem accessRegionsPrivileged_eq_seqSteps (fuel : Nat) (mc : Int) (m : Machine) :
    accessRegionsPrivileged fuel mc m =
      seqSteps
        [store fuel 0x20010000 0, fun m => some (reEnable mc m),
         load fuel 0x20010000, fun m => some (reEnable mc m),
         store fuel 0x20014000 0, load fuel 0x20014000,
         load fuel 0x20018000, store fuel 0x20018000 0, fun m => some (reEnable mc m),
         store fuel 0x20020000 0, load fuel 0x20020000,
         store fuel 0x20024000 0, load fuel 0x20024000,
         store fuel 0x20028000 0, fun m => some (reEnable mc m),
         load fuel 0x20028000] m := by
  simp [accessRegionsPrivileged, seqSteps]

theorem set_bit0_and_one (c : Nat) : u32 (c ||| 1) &&& 1 = 1 := by
  have h : (u32 (c ||| 1)).testBit 0 = true := by
    unfold u32
    rw [Nat.testBit_mod_two_pow, Nat.testBit_or]
    simp
  rw [Nat.and_one_is_mod]
  rw [Nat.testBit_zero] at h
  simpa using h

theorem respects_logPrint (R : MPU → MPU → Prop) (msg : LogMsg) :
    Respects R (fun m => some (logPrint msg m)) :=
  respects_total R _ (fun _ _ _ h => ⟨h.1, h.2.1, h.2.2⟩)

theorem respects_drop_privilege (R : MPU → MPU → Prop) :
    Respects R (fun m => some (__set_CONTROL (__get_CONTROL m ||| CONTROL_nPRIV_Msk) m)) := by
  apply respects_total
  intro pre m c h
  refine ⟨h.1, ?_, h.2.2⟩
  show (u32 (m.control ||| 1) &&& 1 == 0) = (u32 (c.control ||| 1) &&& 1 == 0)
  rw [set_bit0_and_one, set_bit0_and_one]

theorem respects_svc (R : MPU → MPU → Prop) (imm : Nat) :
    Respects R (fun m => some (svc imm m)) := by
  apply respects_total
  intro pre m c h
  refine ⟨h.1, ?_, h.2.2⟩
  show (u32 (m.control &&& (0xFFFFFFFF ^^^ 1)) &&& 1 == 0) =
    (u32 (c.control &&& (0xFFFFFFFF ^^^ 1)) &&& 1 == 0)
  rw [clear_bit0_and_one, clear_bit0_and_one]

theorem respects_accessRegionsPrivileged {R : MPU → MPU → Prop} (hR : AccessBlind R)
    (fuel : Nat) (mc : Int) :
    Respects R (accessRegionsPrivileged fuel mc) := by
  have h := respects_seqSteps R
    [store fuel 0x20010000 0, fun m => some (reEnable mc m),
     load fuel 0x20010000, fun m => some (reEnable mc m),
     store fuel 0x20014000 0, load fuel 0x20014000,
     load fuel 0x20018000, store fuel 0x20018000 0, fun m => some (reEnable mc m),
     store fuel 0x20020000 0, load fuel 0x20020000,
     store fuel 0x20024000 0, load fuel 0x20024000,
     store fuel 0x20028000 0, fun m => some (reEnable mc m),
     load fuel 0x20028000]
    (by
      intro f hf
      simp only [List.mem_cons, List.mem_singleton, List.mem_nil_iff, or_false] at hf
      rcases hf with rfl | rfl | rfl | rfl | rfl | rfl | rfl | rfl | rfl | rfl | rfl | rfl |
        rfl | rfl | rfl | rfl <;>
      first
        | exact respects_access hR _ _ _ _
        | exact respects_reEnable hR _)
  intro pre m c hag c' hc
  rw [accessRegionsPrivileged_eq_seqSteps] at hc ⊢
  exact h pre m c hag c' hc

theorem accessRegionsMPU_eq_seqSteps (fuel : Nat) (mc : Int) (m : Machine) :
    accessRegionsMPU fuel mc m =
      seqSteps
        [accessRegionsPrivileged fuel mc, fun m => some (logPrint .endingPrivilege m),
         fun m => some (__set_CONTROL (__get_CONTROL m ||| CONTROL_nPRIV_Msk) m),
         store fuel 0x20028000 0, fun m => some (svc 8 m)] m := by
  simp [accessRegionsMPU, seqSteps]

theorem respects_accessRegionsMPU {R : MPU → MPU → Prop} (hR : AccessBlind R)
    (fuel : Nat) (mc : Int) :
    Respects R (accessRegionsMPU fuel mc) := by
  have h := respects_seqSteps R
    [accessRegionsPrivileged fuel mc, fun m => some (logPrint .endingPrivilege m),
     fun m => some (__set_CONTROL (__get_CONTROL m ||| CONTROL_nPRIV_Msk) m),
     store fuel 0x20028000 0, fun m => some (svc 8 m)]
    (by
      intro f hf
      simp only [List.mem_cons, List.mem_singleton, List.mem_nil_iff, or_false] at hf
      rcases hf with rfl | rfl | rfl | rfl | rfl
      · exact respects_accessRegionsPrivileged hR _ _
      · exact respects_logPrint R _
      · exact respects_drop_privilege R
      · exact respects_access hR _ _ _ _
      · exact respects_svc R _)
  intro pre m c hag c' hc
  rw [accessRegionsMPU_eq_seqSteps] at hc ⊢
  exact h pre m c hag c' hc

/-! ## The two tables -/

theorem eight_slots (l : List Slot) (h : l.length = 8) :
    ∃ s0 s1 s2 s3 s4 s5 s6 s7, l = [s0, s1, s2, s3, s4, s5, s6, s7] := by
  match l, h with
  | [s0, s1, s2, s3, s4, s5, s6, s7], _ => exact ⟨s0, s1, s2, s3, s4, s5, s6, s7, rfl⟩

theorem write_region (p : MPU) (n b w : Nat) :
    ((p.write MPU_REG_RNR n).write MPU_REG_RBAR b).write MPU_REG_RLAR w =
      { ctrl := p.ctrl, rnr := u32 n, slots := p.slots.set (u32 n) ⟨u32 b, u32 w⟩ } := by
  by_cases h : u32 n < p.slots.length
  · simp [MPU.write, MPU.slot, MPU_REG_CTRL, MPU_REG_RNR, MPU_REG_RBAR, MPU_REG_RLAR,
      List.getD_eq_getElem?_getD, h]
  · have hset : ∀ x : Slot, p.slots.set (u32 n) x = p.slots := fun x =>
      List.set_eq_of_length_le (by omega)
    simp [MPU.write, MPU_REG_CTRL, MPU_REG_RNR, MPU_REG_RBAR, MPU_REG_RLAR, hset]

theorem ARM_MPU_SetRegionEx_region (n b w : Nat) (k : Machine) :
    (ARM_MPU_SetRegionEx n b w k).mpu =
      { ctrl := k.mpu.ctrl, rnr := u32 n, slots := k.mpu.slots.set (u32 n) ⟨u32 b, u32 w⟩ } := by
  rw [ARM_MPU_SetRegionEx_mpu, write_region]

theorem ManualConfigureRegion_region (n b s a x : Nat) (k : Machine) :
    (ManualConfigureRegion n b s a x k).mpu =
      { ctrl := k.mpu.ctrl, rnr := u32 (u8 n),
        slots := k.mpu.slots.set (u32 (u8 n)) ⟨u32 (u32 b), u32 (manualRegisterValue s a x)⟩ } := by
  rw [ManualConfigureRegion_mpu, write_region]

theorem ARM_MPU_Enable_mpu (c : Nat) (k : Machine) :
    (ARM_MPU_Enable c k).mpu =
      { ctrl := u32 (c ||| MPU_CTRL_ENABLE_Msk), rnr := k.mpu.rnr, slots := k.mpu.slots } := rfl

theorem ARM_MPU_Disable_mpu (k : Machine) :
    (ARM_MPU_Disable k).mpu =
      { ctrl := u32 (k.mpu.ctrl &&& (0xFFFFFFFF ^^^ MPU_CTRL_ENABLE_Msk)), rnr := k.mpu.rnr,
        slots := k.mpu.slots } := rfl

theorem poke_ctrl_mpu (v : Nat) (k : Machine) :
    (poke MPU_REG_CTRL v k).mpu = { ctrl := u32 v, rnr := k.mpu.rnr, slots := k.mpu.slots } := rfl

theorem logPrint_mpu (msg : LogMsg) (k : Machine) : (logPrint msg k).mpu = k.mpu := rfl

/-- Whatever the eight slots held before, `CmsisInitMPU` leaves the register
file it leaves from boot. -/
theorem CmsisInitMPU_mpu (m : Machine) (hlen : m.mpu.slots.length = 8) :
    (CmsisInitMPU m).mpu = (CmsisInitMPU bootMachine).mpu := by
  obtain ⟨s0, s1, s2, s3, s4, s5, s6, s7, hs⟩ := eight_slots m.mpu.slots hlen
  have hb : bootMachine.mpu.slots =
      [⟨0, 0⟩, ⟨0, 0⟩, ⟨0, 0⟩, ⟨0, 0⟩, ⟨0, 0⟩, ⟨0, 0⟩, ⟨0, 0⟩, ⟨0, 0⟩] := rfl
  simp only [CmsisInitMPU, ARM_MPU_SetRegionEx_region, ARM_MPU_Enable_mpu, ARM_MPU_Disable_mpu,
    hs, hb]
  rfl

/-- With slots 4..7 disabled, `ManualInitMPU` leaves a register file alike
the one it leaves from boot, whatever the slots held before. -/
theorem ManualInitMPU_alike (m : Machine) (hlen : m.mpu.slots.length = 8)
    (hoff : ∀ i, i < 8 → 4 ≤ i → (m.mpu.slot i).enabled = false) :
    (ManualInitMPU m).mpu.alike (ManualInitMPU bootMachine).mpu := by
  obtain ⟨s0, s1, s2, s3, s4, s5, s6, s7, hs⟩ := eight_slots m.mpu.slots hlen
  have h4 := hoff 4 (by decide) (by decide)
  have h5 := hoff 5 (by decide) (by decide)
  have h6 := hoff 6 (by decide) (by decide)
  have h7 := hoff 7 (by decide) (by decide)
  simp only [MPU.slot, hs, List.getD_cons_zero, List.getD_cons_succ] at h4 h5 h6 h7
  have hb : bootMachine.mpu.slots =
      [⟨0, 0⟩, ⟨0, 0⟩, ⟨0, 0⟩, ⟨0, 0⟩, ⟨0, 0⟩, ⟨0, 0⟩, ⟨0, 0⟩, ⟨0, 0⟩] := rfl
  have hz : (⟨0, 0⟩ : Slot).enabled = false := by decide
  unfold MPU.alike
  simp only [ManualInitMPU, ManualConfigureRegion_region, poke_ctrl_mpu, logPrint_mpu, hs, hb]
  refine ⟨by first | rfl | trivial, ?_⟩
  exact ⟨Or.inl rfl, Or.inl rfl, Or.inl rfl, Or.inl rfl, Or.inr ⟨h4, hz⟩,
    Or.inr ⟨h5, hz⟩, Or.inr ⟨h6, hz⟩, Or.inr ⟨h7, hz⟩, trivial⟩

/-! ## Single accesses -/

theorem MemManage_Handler_cfsr (m : Machine) : (MemManage_Handler m).cfsr = m.cfsr := by
  unfold MemManage_Handler
  simp only []
  split_ifs <;> rfl

theorem MemManage_Handler_mmfar (m : Machine) : (MemManage_Handler m).mmfar = m.mmfar := by
  unfold MemManage_Handler
  simp only []
  split_ifs <;> rfl

theorem or_flags_and_daccviol (c : Nat) : (c ||| 0x02 ||| 0x80) &&& 0x02 = 0x02 := by
  apply Nat.eq_of_testBit_eq
  intro i
  simp only [Nat.testBit_and, Nat.testBit_or]
  cases c.testBit i <;> cases Nat.testBit 0x02 i <;> cases Nat.testBit 0x80 i <;> rfl

theorem or_flags_and_mmarvalid (c : Nat) : (c ||| 0x02 ||| 0x80) &&& 0x80 = 0x80 := by
  apply Nat.eq_of_testBit_eq
  intro i
  simp only [Nat.testBit_and, Nat.testBit_or]
  cases c.testBit i <;> cases Nat.testBit 0x02 i <;> cases Nat.testBit 0x80 i <;> rfl

theorem access_permitted (n addr : Nat) (k : AccessKind) (v : Nat) (m : Machine)
    (h : m.mpu.permits m.privileged addr k = true) :
    access (n + 1) addr k v m =
      some (perform addr k v { m with trace := m.trace ++
        [⟨addr, k, m.privileged, m.mpu.ctrl &&& MPU_CTRL_ENABLE_Msk != 0, false⟩] }) := by
  have h' : ({ m with trace := m.trace ++
      [(⟨addr, k, m.privileged, m.mpu.ctrl &&& MPU_CTRL_ENABLE_Msk != 0,
        !(m.mpu.permits m.privileged addr k)⟩ : AccessEvent)] } : Machine).mpu.permits
      ({ m with trace := m.trace ++
      [(⟨addr, k, m.privileged, m.mpu.ctrl &&& MPU_CTRL_ENABLE_Msk != 0,
        !(m.mpu.permits m.privileged addr k)⟩ : AccessEvent)] } : Machine).privileged addr k
        = true := h
  unfold access
  simp only []
  unfold attempt
  rw [if_pos h', h]
  rfl

theorem access_denied (n addr : Nat) (k : AccessKind) (v : Nat) (m : Machine)
    (h : m.mpu.permits m.privileged addr k = false) :
    access (n + 2) addr k v m =
      some (perform addr k v (MemManage_Handler (memManageEntry addr { m with trace := m.trace ++
        [⟨addr, k, m.privileged, m.mpu.ctrl &&& MPU_CTRL_ENABLE_Msk != 0, true⟩] }))) := by
  have h' : ({ m with trace := m.trace ++
      [(⟨addr, k, m.privileged, m.mpu.ctrl &&& MPU_CTRL_ENABLE_Msk != 0,
        !(m.mpu.permits m.privileged addr k)⟩ : AccessEvent)] } : Machine).mpu.permits
      ({ m with trace := m.trace ++
      [(⟨addr, k, m.privileged, m.mpu.ctrl &&& MPU_CTRL_ENABLE_Msk != 0,
        !(m.mpu.permits m.privileged addr k)⟩ : AccessEvent)] } : Machine).privileged addr k
        = false := h
  unfold access
  simp only []
  rw [attempt_succ_succ, h', h]
  rfl

theorem access_one_denied (addr : Nat) (k : AccessKind) (v : Nat) (m : Machine)
    (h : m.mpu.permits m.privileged addr k = false) :
    access 1 addr k v m = none := by
  have h' : ({ m with trace := m.trace ++
      [(⟨addr, k, m.privileged, m.mpu.ctrl &&& MPU_CTRL_ENABLE_Msk != 0,
        !(m.mpu.permits m.privileged addr k)⟩ : AccessEvent)] } : Machine).mpu.permits
      ({ m with trace := m.trace ++
      [(⟨addr, k, m.privileged, m.mpu.ctrl &&& MPU_CTRL_ENABLE_Msk != 0,
        !(m.mpu.permits m.privileged addr k)⟩ : AccessEvent)] } : Machine).privileged addr k
        = false := h
  unfold access
  simp only []
  unfold attempt
  rw [h']
  rfl

theorem perform_write_mpu (addr v : Nat) (m : Machine) :
    (perform addr .write v m).mpu = m.mpu := rfl

/-! ## End-to-end scenario (C4) -/

/-- C4: on the table `CmsisInitMPU` configures (whatever the eight slots
held before), slots 0-3 are 0x0 / 128 KB / FULL, 0x20000000 / 64 KB / FULL,
0x20010000 / 16 KB / NONE / execute-never and 0x20014000 / 16 KB / FULL, and
protection is enabled.  A privileged write to 0x20010000 is denied (slot 2
governs); it faults once, with the data-access-violation and address-valid
flags latched and faulting address 0x20010000; after the retry-policy handler
the store completes with the global enable bit clear; after the harness
re-enables, the privileged write to 0x20014000 completes without a fault. -/
theorem cmsis_end_to_end (m : Machine) (fuel : Nat)
    (hlen : m.mpu.slots.length = 8) (hpriv : m.privileged = true) :
    ((CmsisInitMPU m).mpu.slots.take 4).map
        (fun s => (s.rbar, s.bytes, s.ap, s.xn, s.enabled)) =
      [(0x0, 128 * 1024, ARM_MPU_AP_FULL, 0, true),
       (0x20000000, 64 * 1024, ARM_MPU_AP_FULL, 0, true),
       (0x20010000, 16 * 1024, ARM_MPU_AP_NONE, 1, true),
       (0x20014000, 16 * 1024, ARM_MPU_AP_FULL, 1, true)] ∧
    (CmsisInitMPU m).mpu.ctrl &&& MPU_CTRL_ENABLE_Msk = 1 ∧
    ((CmsisInitMPU m).mpu.governing 0x20010000).map (fun r => r.1) = some 2 ∧
    (CmsisInitMPU m).mpu.permits true 0x20010000 .write = false ∧
    store 1 0x20010000 0 (CmsisInitMPU m) = none ∧
    ∃ m1, store (fuel + 2) 0x20010000 0 (CmsisInitMPU m) = some m1 ∧
      m1.trace = m.trace ++ [⟨0x20010000, .write, true, true, true⟩] ∧
      m1.cfsr &&& SCB_CFSR_DACCVIOL_Msk = SCB_CFSR_DACCVIOL_Msk ∧
      m1.cfsr &&& SCB_CFSR_MMARVALID_Msk = SCB_CFSR_MMARVALID_Msk ∧
      m1.mmfar = 0x20010000 ∧
      m1.mpu.ctrl &&& MPU_CTRL_ENABLE_Msk = 0 ∧
      m1.mpu.slots = (CmsisInitMPU m).mpu.slots ∧
      (reEnable 0 m1).mpu.ctrl &&& MPU_CTRL_ENABLE_Msk = 1 ∧
      ((reEnable 0 m1).mpu.governing 0x20014000).map (fun r => r.1) = some 3 ∧
      (reEnable 0 m1).mpu.permits true 0x20014000 .write = true ∧
      ∃ m2, store (fuel + 1) 0x20014000 0 (reEnable 0 m1) = some m2 ∧
        m2.trace = m1.trace ++ [⟨0x20014000, .write, true, true, false⟩] ∧
        m2.log = m1.log ∧
        m2.mpu.ctrl &&& MPU_CTRL_ENABLE_Msk = 1 := by
  have hmpu := CmsisInitMPU_mpu m hlen
  have hp0 : (CmsisInitMPU m).privileged = true := hpriv
  have ht0 : (CmsisInitMPU m).trace = m.trace := rfl
  generalize CmsisInitMPU m = m0 at hmpu hp0 ht0 ⊢
  have hden : m0.mpu.permits m0.privileged 0x20010000 .write = false := by
    rw [hp0, hmpu]; decide
  have hen : (m0.mpu.ctrl &&& MPU_CTRL_ENABLE_Msk != 0) = true := by
    rw [hmpu]; decide
  have hre : ∀ k : Machine, k.mpu.slots = m0.mpu.slots → k.mpu.rnr = m0.mpu.rnr →
      (reEnable 0 k).mpu = (CmsisInitMPU bootMachine).mpu := by
    intro k hk1 hk2
    show (ARM_MPU_Enable _ k).mpu = _
    rw [ARM_MPU_Enable_mpu, hk1, hk2, hmpu]
    rfl
  refine ⟨by rw [hmpu]; decide, by rw [hmpu]; decide, by rw [hmpu]; decide,
    by rw [hmpu]; decide, access_one_denied _ _ _ _ hden, _,
    access_denied fuel _ _ _ _ hden, ?_, ?_, ?_, ?_, ?_, ?_, ?_⟩
  · show (MemManage_Handler _).trace = _
    rw [MemManage_Handler_trace, hp0, hen, ← ht0]
    rfl
  · show (MemManage_Handler _).cfsr &&& _ = _
    rw [MemManage_Handler_cfsr]
    exact or_flags_and_daccviol _
  · show (MemManage_Handler _).cfsr &&& _ = _
    rw [MemManage_Handler_cfsr]
    exact or_flags_and_mmarvalid _
  · show (MemManage_Handler _).mmfar = _
    rw [MemManage_Handler_mmfar]
    rfl
  · show (MemManage_Handler _).mpu.ctrl &&& _ = _
    rw [MemManage_Handler_ctrl]
    exact clear_bit0_and_one _
  · show (MemManage_Handler _).mpu.slots = _
    rw [MemManage_Handler_mpu]
    rfl
  · generalize hm1 : perform 0x20010000 .write 0 (MemManage_Handler (memManageEntry 0x20010000
      { m0 with trace := m0.trace ++
        [⟨0x20010000, .write, m0.privileged, m0.mpu.ctrl &&& MPU_CTRL_ENABLE_Msk != 0, true⟩] }))
      = m1
    have hs1 : m1.mpu.slots = m0.mpu.slots := by
      rw [← hm1, perform_write_mpu, MemManage_Handler_mpu]; rfl
    have hr1 : m1.mpu.rnr = m0.mpu.rnr := by
      rw [← hm1, perform_write_mpu, MemManage_Handler_mpu]; rfl
    have hp1 : m1.privileged = true := by
      rw [← hm1]
      show (MemManage_Handler _).privileged = true
      unfold Machine.privileged
      rw [MemManage_Handler_control]
      exact hp0
    have hmpu2 := hre m1 hs1 hr1
    have hp2 : (reEnable 0 m1).privileged = true := hp1
    have hok : (reEnable 0 m1).mpu.permits (reEnable 0 m1).privileged 0x20014000 .write
        = true := by
      rw [hp2, hmpu2]; decide
    have hen2 : ((reEnable 0 m1).mpu.ctrl &&& MPU_CTRL_ENABLE_Msk != 0) = true := by
      rw [hmpu2]; decide
    refine ⟨by rw [hmpu2]; decide, by rw [hmpu2]; decide, by rw [hmpu2]; decide, _,
      access_permitted fuel _ _ _ _ hok, ?_, rfl, ?_⟩
    · show (reEnable 0 m1).trace ++ _ = _
      rw [hp2, hen2]
      rfl
    · show (reEnable 0 m1).mpu.ctrl &&& _ = 1
      rw [hmpu2]; decide

theorem cmsis_end_to_end_witness :
    ((CmsisInitMPU bootMachine).mpu.slots.take 4).map
        (fun s => (s.rbar, s.bytes, s.ap, s.xn, s.enabled)) =
      [(0x0, 128 * 1024, ARM_MPU_AP_FULL, 0, true),
       (0x20000000, 64 * 1024, ARM_MPU_AP_FULL, 0, true),
       (0x20010000, 16 * 1024, ARM_MPU_AP_NONE, 1, true),
       (0x20014000, 16 * 1024, ARM_MPU_AP_FULL, 1, true)] ∧
    (CmsisInitMPU bootMachine).mpu.ctrl &&& MPU_CTRL_ENABLE_Msk = 1 ∧
    ((CmsisInitMPU bootMachine).mpu.governing 0x20010000).map (fun r => r.1) = some 2 ∧
    (CmsisInitMPU bootMachine).mpu.permits true 0x20010000 .write = false ∧
    store 1 0x20010000 0 (CmsisInitMPU bootMachine) = none ∧
    ∃ m1, store (0 + 2) 0x20010000 0 (CmsisInitMPU bootMachine) = some m1 ∧
      m1.trace = bootMachine.trace ++ [⟨0x20010000, .write, true, true, true⟩] ∧
      m1.cfsr &&& SCB_CFSR_DACCVIOL_Msk = SCB_CFSR_DACCVIOL_Msk ∧
      m1.cfsr &&& SCB_CFSR_MMARVALID_Msk = SCB_CFSR_MMARVALID_Msk ∧
      m1.mmfar = 0x20010000 ∧
      m1.mpu.ctrl &&& MPU_CTRL_ENABLE_Msk = 0 ∧
      m1.mpu.slots = (CmsisInitMPU bootMachine).mpu.slots ∧
      (reEnable 0 m1).mpu.ctrl &&& MPU_CTRL_ENABLE_Msk = 1 ∧
      ((reEnable 0 m1).mpu.governing 0x20014000).map (fun r => r.1) = some 3 ∧
      (reEnable 0 m1).mpu.permits true 0x20014000 .write = true ∧
      ∃ m2, store (0 + 1) 0x20014000 0 (reEnable 0 m1) = some m2 ∧
        m2.trace = m1.trace ++ [⟨0x20014000, .write, true, true, false⟩] ∧
        m2.log = m1.log ∧
        m2.mpu.ctrl &&& MPU_CTRL_ENABLE_Msk = 1 :=
  cmsis_end_to_end bootMachine 0 (by decide) (by decide)

/-! ## The exercise script against the two tables (C7, C8, C9, C10) -/

theorem privileged_iff (m : Machine) :
    m.privileged = true ↔ m.control &&& CONTROL_nPRIV_Msk = 0 := by
  unfold Machine.privileged
  exact beq_iff_eq

theorem agree_cmsis (m : Machine) (hlen : m.mpu.slots.length = 8)
    (hpriv : m.privileged = true) :
    Agree Eq m.trace (CmsisInitMPU m) (CmsisInitMPU bootMachine) := by
  refine ⟨CmsisInitMPU_mpu m hlen, ?_, ?_⟩
  · show m.privileged = bootMachine.privileged
    rw [hpriv]; decide
  · show m.trace = m.trace ++ []
    rw [List.append_nil]

theorem agree_manual (m : Machine) (hlen : m.mpu.slots.length = 8)
    (hoff : ∀ i, i < 8 → 4 ≤ i → (m.mpu.slot i).enabled = false)
    (hpriv : m.privileged = true) :
    Agree MPU.alike m.trace (ManualInitMPU m) (ManualInitMPU bootMachine) := by
  refine ⟨ManualInitMPU_alike m hlen hoff, ?_, ?_⟩
  · show m.privileged = bootMachine.privileged
    rw [hpriv]; decide
  · show m.trace = m.trace ++ []
    rw [List.append_nil]

/-- C7: running the privileged part of the script against the table
`CmsisInitMPU` configures, every access finds the MPU enabled and the
accesses that trap are exactly: write and read at 0x20010000 (slot 2, NONE),
write at 0x20018000 (slot 4, PRO) and write at 0x20028000 (slot 7, RO); the
accesses at 0x20014000 (slot 3, FULL), the read at 0x20018000, the accesses
at 0x20020000 (slot 5, PRIV_RW) and 0x20024000 (slot 6, URO) and the read at
0x20028000 do not trap. -/
theorem cmsis_privileged_script_traps (m : Machine) (fuel : Nat)
    (hlen : m.mpu.slots.length = 8) (hpriv : m.privileged = true) :
    [0x20010000, 0x20014000, 0x20018000, 0x20020000, 0x20024000, 0x20028000].map
        (fun a => ((CmsisInitMPU m).mpu.governing a).map (fun r => (r.1, r.2.ap))) =
      [some (2, ARM_MPU_AP_NONE), some (3, ARM_MPU_AP_FULL), some (4, ARM_MPU_AP_PRO),
       some (5, ARM_MPU_AP_PRIV), some (6, ARM_MPU_AP_URO), some (7, ARM_MPU_AP_RO)] ∧
    ∃ m', accessRegionsPrivileged (fuel + 2) 0 (CmsisInitMPU m) = some m' ∧
      m'.trace = m.trace ++
        [⟨0x20010000, .write, true, true, true⟩, ⟨0x20010000, .read, true, true, true⟩,
         ⟨0x20014000, .write, true, true, false⟩, ⟨0x20014000, .read, true, true, false⟩,
         ⟨0x20018000, .read, true, true, false⟩, ⟨0x20018000, .write, true, true, true⟩,
         ⟨0x20020000, .write, true, true, false⟩, ⟨0x20020000, .read, true, true, false⟩,
         ⟨0x20024000, .write, true, true, false⟩, ⟨0x20024000, .read, true, true, false⟩,
         ⟨0x20028000, .write, true, true, true⟩, ⟨0x20028000, .read, true, true, false⟩] := by
  refine ⟨by rw [CmsisInitMPU_mpu m hlen]; decide, ?_⟩
  have hsome : (accessRegionsPrivileged 2 0 (CmsisInitMPU bootMachine)).isSome = true := by
    decide
  obtain ⟨c', hc'⟩ := Option.isSome_iff_exists.mp hsome
  have htr : (accessRegionsPrivileged 2 0 (CmsisInitMPU bootMachine)).map Machine.trace =
      some [⟨0x20010000, .write, true, true, true⟩, ⟨0x20010000, .read, true, true, true⟩,
         ⟨0x20014000, .write, true, true, false⟩, ⟨0x20014000, .read, true, true, false⟩,
         ⟨0x20018000, .read, true, true, false⟩, ⟨0x20018000, .write, true, true, true⟩,
         ⟨0x20020000, .write, true, true, false⟩, ⟨0x20020000, .read, true, true, false⟩,
         ⟨0x20024000, .write, true, true, false⟩, ⟨0x20024000, .read, true, true, false⟩,
         ⟨0x20028000, .write, true, true, true⟩, ⟨0x20028000, .read, true, true, false⟩] := by
    decide
  rw [hc', Option.map_some'] at htr
  obtain ⟨m', hm', hag⟩ :=
    respects_accessRegionsPrivileged accessBlind_eq 2 0 m.trace _ _
      (agree_cmsis m hlen hpriv) c' hc'
  refine ⟨m', by rw [accessRegionsPrivileged_fuel]; exact hm', ?_⟩
  rw [hag.2.2, Option.some.inj htr]

theorem cmsis_privileged_script_traps_witness :
    [0x20010000, 0x20014000, 0x20018000, 0x20020000, 0x20024000, 0x20028000].map
        (fun a => ((CmsisInitMPU bootMachine).mpu.governing a).map (fun r => (r.1, r.2.ap))) =
      [some (2, ARM_MPU_AP_NONE), some (3, ARM_MPU_AP_FULL), some (4, ARM_MPU_AP_PRO),
       some (5, ARM_MPU_AP_PRIV), some (6, ARM_MPU_AP_URO), some (7, ARM_MPU_AP_RO)] ∧
    ∃ m', accessRegionsPrivileged (0 + 2) 0 (CmsisInitMPU bootMachine) = some m' ∧
      m'.trace = bootMachine.trace ++
        [⟨0x20010000, .write, true, true, true⟩, ⟨0x20010000, .read, true, true, true⟩,
         ⟨0x20014000, .write, true, true, false⟩, ⟨0x20014000, .read, true, true, false⟩,
         ⟨0x20018000, .read, true, true, false⟩, ⟨0x20018000, .write, true, true, true⟩,
         ⟨0x20020000, .write, true, true, false⟩, ⟨0x20020000, .read, true, true, false⟩,
         ⟨0x20024000, .write, true, true, false⟩, ⟨0x20024000, .read, true, true, false⟩,
         ⟨0x20028000, .write, true, true, true⟩, ⟨0x20028000, .read, true, true, false⟩] :=
  cmsis_privileged_script_traps bootMachine 0 (by decide) (by decide)

/-- The whole script, from a machine agreeing with a booted one on the
register file: it completes, and agrees with the booted run. -/
theorem script_from_boot {R : MPU → MPU → Prop} (hR : AccessBlind R)
    (init : Machine → Machine) (mc : Int) (fuel : Nat) (m : Machine)
    (hag : Agree R m.trace (init m) (init bootMachine))
    (hsome : (accessRegionsMPU 2 mc (init bootMachine)).isSome = true) :
    ∃ m' c', accessRegionsMPU 2 mc (init bootMachine) = some c' ∧
      accessRegionsMPU (fuel + 2) mc (init m) = some m' ∧ Agree R m.trace m' c' := by
  obtain ⟨c', hc'⟩ := Option.isSome_iff_exists.mp hsome
  obtain ⟨m', hm', hag'⟩ := respects_accessRegionsMPU hR 2 mc m.trace _ _ hag c' hc'
  exact ⟨m', c', hc', by rw [accessRegionsMPU_fuel]; exact hm', hag'⟩

/-- C8: under the retry policy, for both pairings of table and harness mode,
every scripted access of `accessRegionsMPU`, in program order, finds the MPU
global enable bit set when first attempted (for the manual pairing: with
slots 4..7, which `ManualInitMPU` leaves alone, disabled); and the control word the manual branch restores
leaves the register file exactly as the `ARM_MPU_Enable` call of the other
branch does. -/
theorem harness_accesses_find_mpu_enabled (m : Machine) (fuel : Nat) (mc : Int)
    (hlen : m.mpu.slots.length = 8) (hpriv : m.privileged = true) (hmc : mc ≠ 0) :
    (∃ m' evs, accessRegionsMPU (fuel + 2) 0 (CmsisInitMPU m) = some m' ∧
      m'.trace = m.trace ++ evs ∧
      evs.map (fun e => (e.addr, e.kind, e.mpuEnabled)) =
        scriptedAccesses.map (fun a => (a.1, a.2, true))) ∧
    ((∀ i, i < 8 → 4 ≤ i → (m.mpu.slot i).enabled = false) →
      ∃ m' evs, accessRegionsMPU (fuel + 2) mc (ManualInitMPU m) = some m' ∧
        m'.trace = m.trace ++ evs ∧
        evs.map (fun e => (e.addr, e.kind, e.mpuEnabled)) =
          scriptedAccesses.map (fun a => (a.1, a.2, true))) ∧
    (∀ k : Machine, (reEnable mc k).mpu = (reEnable 0 k).mpu) ∧
    (∀ k : Machine, (poke MPU_REG_CTRL 0x7 k).mpu =
      (ARM_MPU_Enable
        (MPU_CTRL_PRIVDEFENA_Msk ||| MPU_CTRL_HFNMIENA_Msk ||| MPU_CTRL_ENABLE_Msk) k).mpu) := by
  refine ⟨?_, ?_, ?_, fun _ => rfl⟩
  · obtain ⟨m', c', hc', hm', hag⟩ :=
      script_from_boot accessBlind_eq CmsisInitMPU 0 fuel m (agree_cmsis m hlen hpriv)
        (by decide)
    have htr : (accessRegionsMPU 2 0 (CmsisInitMPU bootMachine)).map
        (fun r => r.trace.map (fun e => (e.addr, e.kind, e.mpuEnabled))) =
        some (scriptedAccesses.map (fun a => (a.1, a.2, true))) := by decide
    rw [hc', Option.map_some'] at htr
    exact ⟨m', c'.trace, hm', hag.2.2, Option.some.inj htr⟩
  · intro hoff
    obtain ⟨m', c', hc', hm', hag⟩ :=
      script_from_boot accessBlind_alike ManualInitMPU 1 fuel m
        (agree_manual m hlen hoff hpriv) (by decide)
    have htr : (accessRegionsMPU 2 1 (ManualInitMPU bootMachine)).map
        (fun r => r.trace.map (fun e => (e.addr, e.kind, e.mpuEnabled))) =
        some (scriptedAccesses.map (fun a => (a.1, a.2, true))) := by decide
    rw [hc', Option.map_some'] at htr
    refine ⟨m', c'.trace, ?_, hag.2.2, Option.some.inj htr⟩
    rw [accessRegionsMPU_of_ne_zero _ hmc]
    exact hm'
  · intro k
    rw [reEnable_of_ne_zero hmc]
    rfl

theorem harness_accesses_find_mpu_enabled_witness :
    (∃ m' evs, accessRegionsMPU (0 + 2) 0 (CmsisInitMPU bootMachine) = some m' ∧
      m'.trace = bootMachine.trace ++ evs ∧
      evs.map (fun e => (e.addr, e.kind, e.mpuEnabled)) =
        scriptedAccesses.map (fun a => (a.1, a.2, true))) ∧
    (∃ m' evs, accessRegionsMPU (0 + 2) 1 (ManualInitMPU bootMachine) = some m' ∧
      m'.trace = bootMachine.trace ++ evs ∧
      evs.map (fun e => (e.addr, e.kind, e.mpuEnabled)) =
        scriptedAccesses.map (fun a => (a.1, a.2, true))) :=
  ⟨(harness_accesses_find_mpu_enabled bootMachine 0 1 (by decide) (by decide) (by decide)).1,
    (harness_accesses_find_mpu_enabled bootMachine 0 1 (by decide) (by decide) (by decide)).2.1
      (by decide)⟩

/-- C9, evaluated on the code: against the table `ManualInitMPU` configures
(control word 0x7), the no-access slot 2 spans 0x20008000..0x2000FFFF and
does not cover 0x20010000; no slot governs that address, the privileged
write is permitted and the first scripted access does not trap.  None of
the addresses the harness names for regions 2..7 lies in the slot of that
index of this table, while each does in the table of `CmsisInitMPU`. -/
theorem manual_table_first_access_not_denied :
    (((ManualInitMPU bootMachine).mpu.slot 2).rbar,
      ((ManualInitMPU bootMachine).mpu.slot 2).bytes,
      ((ManualInitMPU bootMachine).mpu.slot 2).ap,
      ((ManualInitMPU bootMachine).mpu.slot 2).enabled) =
        (0x20008000, 32 * 1024, ARM_MPU_AP_NONE, true) ∧
    ((ManualInitMPU bootMachine).mpu.slot 2).covers 0x2000FFFF = true ∧
    ((ManualInitMPU bootMachine).mpu.slot 2).covers 0x20010000 = false ∧
    (ManualInitMPU bootMachine).mpu.governing 0x20010000 = none ∧
    (ManualInitMPU bootMachine).mpu.ctrl = 0x7 ∧
    (ManualInitMPU bootMachine).mpu.permits true 0x20010000 .write = true ∧
    (accessRegionsMPU 2 1 (ManualInitMPU bootMachine)).map (fun r => r.trace.head?) =
      some (some ⟨0x20010000, .write, true, true, false⟩) ∧
    (accessRegionsMPU 2 1 (ManualInitMPU bootMachine)).map
        (fun r => (r.trace.take 12).map (fun e => e.trapped)) =
      some (List.replicate 12 false) ∧
    [(2, 0x20010000), (3, 0x20014000), (4, 0x20018000), (5, 0x20020000), (6, 0x20024000),
      (7, 0x20028000)].map
        (fun ka => ((ManualInitMPU bootMachine).mpu.slot ka.1).covers ka.2) =
      [false, false, false, false, false, false] ∧
    [(2, 0x20010000), (3, 0x20014000), (4, 0x20018000), (5, 0x20020000), (6, 0x20024000),
      (7, 0x20028000)].map
        (fun ka => ((CmsisInitMPU bootMachine).mpu.slot ka.1).covers ka.2) =
      [true, true, true, true, true, true] := by
  decide

/-- C10: `main` (`CmsisInitMPU`, then `accessRegionsMPU(0)`) under the retry
policy returns 0; the last scripted access, the unprivileged write to
0x20028000, traps; on completion the nPRIV bit of CONTROL is clear, the MPU
global enable bit is clear, and the eight region slots are as `CmsisInitMPU`
wrote them. -/
theorem main_ends_privileged_and_unprotected (m : Machine) (fuel : Nat)
    (hlen : m.mpu.slots.length = 8) (hpriv : m.privileged = true) :
    ∃ f evs, main (fuel + 2) m = some (0, f) ∧
      f.control &&& CONTROL_nPRIV_Msk = 0 ∧
      f.mpu.ctrl &&& MPU_CTRL_ENABLE_Msk = 0 ∧
      f.mpu.slots = (CmsisInitMPU m).mpu.slots ∧
      f.trace = m.trace ++ evs ∧
      evs.map (fun e => (e.addr, e.kind)) = scriptedAccesses ∧
      evs.getLast? = some ⟨0x20028000, .write, false, true, true⟩ := by
  have hag : Agree Eq m.trace
      (CmsisInitMPU (logPrint (.controlPspMsp (__get_CONTROL (__set_PSP 0x20000000 m))
        (__get_PSP (__set_PSP 0x20000000 m)) (__get_MSP (__set_PSP 0x20000000 m)))
        (__set_PSP 0x20000000 m)))
      (CmsisInitMPU bootMachine) :=
    agree_cmsis (logPrint _ (__set_PSP 0x20000000 m)) hlen hpriv
  have hsome : (accessRegionsMPU 2 0 (CmsisInitMPU bootMachine)).isSome = true := by decide
  obtain ⟨c', hc'⟩ := Option.isSome_iff_exists.mp hsome
  obtain ⟨f, hf, hagf⟩ := respects_accessRegionsMPU accessBlind_eq 2 0 m.trace _ _ hag c' hc'
  have h1 : (accessRegionsMPU 2 0 (CmsisInitMPU bootMachine)).map Machine.privileged =
      some true := by decide
  have h2 : (accessRegionsMPU 2 0 (CmsisInitMPU bootMachine)).map
      (fun r => r.mpu.ctrl &&& MPU_CTRL_ENABLE_Msk) = some 0 := by decide
  have h3 : (accessRegionsMPU 2 0 (CmsisInitMPU bootMachine)).map (fun r => r.mpu.slots) =
      some (CmsisInitMPU bootMachine).mpu.slots := by decide
  have h4 : (accessRegionsMPU 2 0 (CmsisInitMPU bootMachine)).map
      (fun r => r.trace.map (fun e => (e.addr, e.kind))) = some scriptedAccesses := by decide
  have h5 : (accessRegionsMPU 2 0 (CmsisInitMPU bootMachine)).map
      (fun r => r.trace.getLast?) = some (some ⟨0x20028000, .write, false, true, true⟩) := by
    decide
  rw [hc', Option.map_some'] at h1 h2 h3 h4 h5
  have h1 := Option.some.inj h1
  have h2 := Option.some.inj h2
  have h3 := Option.some.inj h3
  have h4 := Option.some.inj h4
  have h5 := Option.some.inj h5
  refine ⟨f, c'.trace, ?_, ?_, ?_, ?_, hagf.2.2, h4, h5⟩
  · rw [main_fuel]
    show (accessRegionsMPU 2 0 _).bind _ = _
    rw [hf]
    rfl
  · exact (privileged_iff f).mp (by rw [hagf.2.1]; exact h1)
  · rw [hagf.1]; exact h2
  · rw [hagf.1, h3, CmsisInitMPU_mpu m hlen]

theorem main_ends_privileged_and_unprotected_witness :
    ∃ f evs, main (0 + 2) bootMachine = some (0, f) ∧
      f.control &&& CONTROL_nPRIV_Msk = 0 ∧
      f.mpu.ctrl &&& MPU_CTRL_ENABLE_Msk = 0 ∧
      f.mpu.slots = (CmsisInitMPU bootMachine).mpu.slots ∧
      f.trace = bootMachine.trace ++ evs ∧
      evs.map (fun e => (e.addr, e.kind)) = scriptedAccesses ∧
      evs.getLast? = some ⟨0x20028000, .write, false, true, true⟩ :=
  main_ends_privileged_and_unprotected bootMachine 0 (by decide) (by decide)

end MpuDemo
